import Mathlib

/-!
Animated tree life cycle: phase controller, seed physics and branch generator

A shallow embedding of `src/main.cpp` (class `AnimatedTreeDrawer`).

Modelling conventions:

* C++ `int` fields and locals are `Int`; the arithmetic is the mathematical one
  (signed overflow is undefined behaviour in C++ and lies outside the model).
* C++ `double` fields and locals are exact rationals `ℚ`: every decimal
  literal of the source (`0.3`, `0.15`, `55.0`, ...) denotes the rational it
  spells.  Rounding of IEEE doubles is not modelled.
* `static_cast<int>(d)` truncates toward zero (`toInt`); integer `/` on `int`
  truncates toward zero (`Int.tdiv`).
* The wall clock read by `update()` is an argument (`elapsedSeconds`).
* The members `flowerPosX`, `flowerPosY` (never initialised, never read) and
  `lastTime` (only feeds `elapsedSeconds`) carry no state of the model.
-/

/-- The `Point` struct of the source: an integer screen/world coordinate. -/
structure Point where
  x : Int
  y : Int
  deriving DecidableEq, Repr

/-- The `Seed` struct of the source. -/
structure Seed where
  x : ℚ
  y : ℚ
  angle : ℚ
  velocityY : ℚ
  active : Bool
  deriving DecidableEq, Repr

/-- The mutable members of class `AnimatedTreeDrawer`. -/
structure AnimatedTreeDrawer where
  screenWidth : Int
  screenHeight : Int
  groundLevel : Int
  seedX : Int
  seedY : Int
  sunAngle : ℚ
  treeGrowthScale : ℚ
  flowerScale : ℚ
  showFlowers : Bool
  flowerPositions : List Point
  fallingSeeds : List Seed
  animationPhase : Int
  phaseTimer : Int
  rightmostBranchX : Int
  rightmostBranchY : Int
  zoomScale : ℚ
  cameraOffsetX : Int
  cameraOffsetY : Int
  deriving DecidableEq, Repr

/-- The conversion `static_cast<int>(d)` of a double: truncation toward zero. -/
def toInt (d : ℚ) : Int :=
  if 0 ≤ d then Int.floor d else Int.ceil d

namespace AnimatedTreeDrawer

/-- The constructor `AnimatedTreeDrawer()`: the member initialiser list; the two
vectors start empty. -/
def new : AnimatedTreeDrawer where
  screenWidth := 800
  screenHeight := 600
  groundLevel := 480
  seedX := 400
  seedY := 480 + 25
  sunAngle := 0.0
  treeGrowthScale := 0.0
  flowerScale := 0.0
  showFlowers := false
  flowerPositions := []
  fallingSeeds := []
  animationPhase := 0
  phaseTimer := 0
  rightmostBranchX := 0
  rightmostBranchY := 0
  zoomScale := 1.0
  cameraOffsetX := 0
  cameraOffsetY := 0

/-- The body of the range-for loop of `updateFallingSeeds()` for one seed; the
pair `(seedX, seedY)` is the landed-seed position it may overwrite. -/
def updateSeed (groundLevel : Int) (seed : Seed) (landed : Int × Int) : Seed × (Int × Int) :=
  if !seed.active then (seed, landed)
  else
    let velocityY := seed.velocityY + 0.3
    let y := seed.y + velocityY
    let x := seed.x + 1.5
    let angle := seed.angle + 0.2
    if (groundLevel : ℚ) + 80 ≤ y then
      ({ x := x, y := y, angle := angle, velocityY := velocityY, active := false },
        (toInt x, groundLevel + 25))
    else
      ({ x := x, y := y, angle := angle, velocityY := velocityY, active := true }, landed)

/-- The range-for loop of `updateFallingSeeds()`, front to back. -/
def updateSeeds (groundLevel : Int) : List Seed → Int × Int → List Seed × (Int × Int)
  | [], landed => ([], landed)
  | seed :: rest, landed =>
    let r := updateSeed groundLevel seed landed
    let rs := updateSeeds groundLevel rest r.2
    (r.1 :: rs.1, rs.2)

/-- The method `updateFallingSeeds()`. -/
def updateFallingSeeds (s : AnimatedTreeDrawer) : AnimatedTreeDrawer :=
  let r := updateSeeds s.groundLevel s.fallingSeeds (s.seedX, s.seedY)
  { s with fallingSeeds := r.1, seedX := r.2.1, seedY := r.2.2 }

/-- The method `resetAnimation()`. -/
def resetAnimation (s : AnimatedTreeDrawer) : AnimatedTreeDrawer :=
  { s with
    treeGrowthScale := 0.0
    flowerScale := 0.0
    showFlowers := false
    animationPhase := 0
    phaseTimer := 0
    fallingSeeds := []
    seedX := s.screenWidth.tdiv 2
    seedY := s.groundLevel + 25
    zoomScale := 1.0
    cameraOffsetX := 0
    cameraOffsetY := 0
    flowerPositions := []
    rightmostBranchX := 0
    rightmostBranchY := 0 }

/-- The `case 0` arm of `update()` (seed germination), after `phaseTimer += 2`. -/
def updateGermination (s : AnimatedTreeDrawer) : AnimatedTreeDrawer :=
  if s.phaseTimer < 40 then { s with treeGrowthScale := 0.0 }
  else { s with animationPhase := 1, phaseTimer := 0 }

/-- The `case 1` arm of `update()` (seedling). -/
def updateSeedling (s : AnimatedTreeDrawer) : AnimatedTreeDrawer :=
  if s.phaseTimer < 60 then
    { s with treeGrowthScale := min 0.15 ((s.phaseTimer : ℚ) / 400.0) }
  else { s with animationPhase := 2, phaseTimer := 0 }

/-- The `case 2` arm of `update()` (tree growth). -/
def updateGrowth (s : AnimatedTreeDrawer) : AnimatedTreeDrawer :=
  if s.phaseTimer < 100 then
    { s with treeGrowthScale := 0.15 + ((s.phaseTimer : ℚ) / 100.0) * 0.85 }
  else { s with animationPhase := 3, phaseTimer := 0, showFlowers := true }

/-- The seed `newSeed` created by the `case 3` arm of `update()` on expiry. -/
def newSeed (s : AnimatedTreeDrawer) : Seed where
  x := if s.rightmostBranchX > 0 then (s.rightmostBranchX : ℚ) else ((s.seedX + 100 : Int) : ℚ)
  y := if s.rightmostBranchY > 0 then (s.rightmostBranchY : ℚ) else ((s.groundLevel - 150 : Int) : ℚ)
  angle := 0
  velocityY := 0
  active := true

/-- The `case 3` arm of `update()` (flowering). -/
def updateFlowering (s : AnimatedTreeDrawer) : AnimatedTreeDrawer :=
  if s.phaseTimer < 25 then { s with flowerScale := (s.phaseTimer : ℚ) / 25.0 }
  else { s with animationPhase := 4, phaseTimer := 0, fallingSeeds := [newSeed s] }

/-- The camera part of the `case 4` arm of `update()`: zoom on the falling seed
while `!fallingSeeds.empty() && fallingSeeds[0].active`, otherwise hold on the
landed seed. -/
def updateCamera (s : AnimatedTreeDrawer) : AnimatedTreeDrawer :=
  match s.fallingSeeds.head?.filter (fun seed => seed.active) with
  | some seed =>
    if s.phaseTimer < 60 then
      let zoomScale : ℚ := 1.0 + ((s.phaseTimer : ℚ) / 55.0) * 7.0
      { s with
        zoomScale := zoomScale
        cameraOffsetX := s.screenWidth.tdiv 2 - toInt (seed.x * zoomScale)
        cameraOffsetY := s.screenHeight.tdiv 2 - toInt (seed.y * zoomScale) }
    else s
  | none =>
    if s.phaseTimer < 90 then
      let zoomScale : ℚ := 8.0
      { s with
        zoomScale := zoomScale
        cameraOffsetX := s.screenWidth.tdiv 2 - toInt ((s.seedX : ℚ) * zoomScale)
        cameraOffsetY := s.screenHeight.tdiv 2 - toInt ((s.seedY : ℚ) * zoomScale) }
    else s

/-- The flag `allFallen` of the `case 4` arm: no seed of the list is active. -/
def allFallen (seeds : List Seed) : Bool :=
  seeds.foldl (fun acc seed => if seed.active then false else acc) true

/-- The `case 4` arm of `update()` (seed dispersal). -/
def updateDispersal (s : AnimatedTreeDrawer) : AnimatedTreeDrawer :=
  let s1 := updateCamera (updateFallingSeeds s)
  if allFallen s1.fallingSeeds && decide (s1.phaseTimer > 90) then
    { s1 with animationPhase := 5, phaseTimer := 0 }
  else s1

/-- The `case 5` arm of `update()` (zoom out, then full reset). -/
def updateReset (s : AnimatedTreeDrawer) : AnimatedTreeDrawer :=
  if s.phaseTimer < 50 then
    let zoomProgress : ℚ := (s.phaseTimer : ℚ) / 50.0
    let targetOffsetX : Int := 0
    let targetOffsetY : Int := 0
    let startOffsetX : Int := s.screenWidth.tdiv 2 - toInt ((s.seedX : ℚ) * 8.0)
    let startOffsetY : Int := s.screenHeight.tdiv 2 - toInt ((s.seedY : ℚ) * 8.0)
    { s with
      treeGrowthScale := 1.0 - ((s.phaseTimer : ℚ) / 50.0)
      flowerScale := 1.0 - ((s.phaseTimer : ℚ) / 50.0)
      zoomScale := 8.0 - (zoomProgress * 7.0)
      cameraOffsetX := startOffsetX + toInt (((targetOffsetX - startOffsetX : Int) : ℚ) * zoomProgress)
      cameraOffsetY := startOffsetY + toInt (((targetOffsetY - startOffsetY : Int) : ℚ) * zoomProgress) }
  else resetAnimation s

/-- The `switch (animationPhase)` of `update()`; a phase outside 0..5 matches no
case. -/
def updatePhase (s : AnimatedTreeDrawer) : AnimatedTreeDrawer :=
  if s.animationPhase = 0 then updateGermination s
  else if s.animationPhase = 1 then updateSeedling s
  else if s.animationPhase = 2 then updateGrowth s
  else if s.animationPhase = 3 then updateFlowering s
  else if s.animationPhase = 4 then updateDispersal s
  else if s.animationPhase = 5 then updateReset s
  else s

/-- The tail of `update()`: the sun advances with the wall clock and wraps. -/
def advanceSun (elapsedSeconds : ℚ) (s : AnimatedTreeDrawer) : AnimatedTreeDrawer :=
  let sunAngle := s.sunAngle + 0.5 * elapsedSeconds
  { s with sunAngle := if sunAngle > 2 * 3.14159 then sunAngle - 2 * 3.14159 else sunAngle }

/-- The method `update()`; `elapsedSeconds` is the wall-clock time since the
previous call. -/
def update (elapsedSeconds : ℚ) (s : AnimatedTreeDrawer) : AnimatedTreeDrawer :=
  advanceSun elapsedSeconds (updatePhase { s with phaseTimer := s.phaseTimer + 2 })

/-- A run of `update()` calls, one per element of `ticks` (the wall-clock
increments), starting from `s`. -/
def run (ticks : List ℚ) (s : AnimatedTreeDrawer) : AnimatedTreeDrawer :=
  ticks.foldl (fun st e => update e st) s

/-! ## States used by the statements below -/

/-- The values the fields named by the reset contract hold right after
construction: `treeGrowthScale`, `flowerScale`, `showFlowers`, `animationPhase`,
`phaseTimer`, `fallingSeeds`, `flowerPositions`, `seedX`, `seedY`, `zoomScale`,
`cameraOffsetX`, `cameraOffsetY`, `rightmostBranchX`, `rightmostBranchY`. -/
def HasConstructedValues (s : AnimatedTreeDrawer) : Prop :=
  s.treeGrowthScale = 0 ∧ s.flowerScale = 0 ∧ s.showFlowers = false ∧
    s.animationPhase = 0 ∧ s.phaseTimer = 0 ∧ s.fallingSeeds = [] ∧
    s.flowerPositions = [] ∧ s.seedX = 400 ∧ s.seedY = 505 ∧ s.zoomScale = 1 ∧
    s.cameraOffsetX = 0 ∧ s.cameraOffsetY = 0 ∧ s.rightmostBranchX = 0 ∧
    s.rightmostBranchY = 0

instance (s : AnimatedTreeDrawer) : Decidable (HasConstructedValues s) := by
  unfold HasConstructedValues
  infer_instance

/-- A state late in the Reset phase: the next `update()` makes the timer reach
50, so the phase expires.  Apart from `seedY` (a landed seed rests at
`groundLevel + 25`, the constructed value) every field the reset must restore
is off its constructed value. -/
def resetExpiring : AnimatedTreeDrawer :=
  { new with
    treeGrowthScale := 0.04
    flowerScale := 0.04
    showFlowers := true
    animationPhase := 5
    phaseTimer := 48
    fallingSeeds := [{ x := 558.5, y := 564, angle := 7.8, velocityY := 11.7, active := false }]
    flowerPositions := [{ x := 520, y := 210 }]
    seedX := 558
    zoomScale := 1.28
    cameraOffsetX := -163
    cameraOffsetY := -150
    rightmostBranchX := 520
    rightmostBranchY := 210 }

/-- A state at the end of the Flowering phase whose recorded anchor is a tip
above the top edge of the window: `rightmostBranchX > 0`, `rightmostBranchY < 0`. -/
def floweringTipAboveWindow : AnimatedTreeDrawer :=
  { new with
    treeGrowthScale := 0.983
    flowerScale := 0.96
    showFlowers := true
    animationPhase := 3
    phaseTimer := 24
    rightmostBranchX := 650
    rightmostBranchY := -20 }

/-- A state at the end of the Flowering phase with an anchor recorded inside the
window. -/
def floweringTipRecorded : AnimatedTreeDrawer :=
  { floweringTipAboveWindow with rightmostBranchX := 520, rightmostBranchY := 210 }

/-- A state at the end of the Flowering phase with no anchor recorded. -/
def floweringNoAnchor : AnimatedTreeDrawer :=
  { floweringTipAboveWindow with rightmostBranchX := 0, rightmostBranchY := 0 }

/-- The states the running program can be in between two method calls: the
constructed object, and what `update()`, `resetAnimation()` (SPACE key) and
`render()` make of such a state.  Of the members modelled here `render()`
writes only the anchor `rightmostBranchX/Y` and `flowerPositions` (through
`drawBranch` and `drawFlower`, see `reachable_render`); the step allows it any
values for them. -/
inductive Reachable : AnimatedTreeDrawer → Prop
  | constructed : Reachable new
  | update (elapsedSeconds : ℚ) {s : AnimatedTreeDrawer} :
      Reachable s → Reachable (update elapsedSeconds s)
  | resetAnimation {s : AnimatedTreeDrawer} : Reachable s → Reachable (resetAnimation s)
  | render (x y : Int) (flowers : List Point) {s : AnimatedTreeDrawer} :
      Reachable s →
        Reachable { s with rightmostBranchX := x, rightmostBranchY := y, flowerPositions := flowers }

/-- What the phase controller maintains about the two scales: the timer is
never negative, both scales lie in [0, 1], the growth scale is 0 during
Germination, at most 0.15 during Seedling and at most the value of the Growth
ramp at the current timer during Growth; the flower scale is 0 before
Flowering and at most the value of the Flowering ramp during Flowering. -/
def ScalesInvariant (s : AnimatedTreeDrawer) : Prop :=
  0 ≤ s.phaseTimer ∧
    (0 ≤ s.treeGrowthScale ∧ s.treeGrowthScale ≤ 1) ∧
    (0 ≤ s.flowerScale ∧ s.flowerScale ≤ 1) ∧
    (s.animationPhase = 0 → s.treeGrowthScale = 0) ∧
    (s.animationPhase = 1 → s.treeGrowthScale ≤ 0.15) ∧
    (s.animationPhase = 2 → s.treeGrowthScale ≤ 0.15 + ((s.phaseTimer : ℚ) / 100.0) * 0.85) ∧
    (s.animationPhase = 0 ∨ s.animationPhase = 1 ∨ s.animationPhase = 2 → s.flowerScale = 0) ∧
    (s.animationPhase = 3 → s.flowerScale ≤ (s.phaseTimer : ℚ) / 25.0)

/-- The wall-clock increments of `n` frames of 33 ms. -/
def frames (n : Nat) : List ℚ := List.replicate n (33 / 1000)

end AnimatedTreeDrawer

/-! ## Branch generator

The graphics library (`graphics.h`) and libm are outside the repository.  The
drawing calls are recorded, in order, in a list of primitives; `cos` and `sin`
are parameters of the model, and so is the sequence of values `rand()`
returns. -/

/-- The libm functions `cos` and `sin` used by the drawing code. -/
structure Trig where
  cos : ℚ → ℚ
  sin : ℚ → ℚ

/-- The drawing primitives issued by `render()` and the methods it calls.
`segment` is the `line(x1, y1, x2, y2)` call of a branch node, with the `depth`
of the node and the line thickness set just before it (the colour is BROWN for
`depth > 4`, LEAF_GREEN otherwise); `leaf` is a `fillellipse` of a leaf
decoration; `petal` and `flowerCentre` are the `fillellipse` calls of
`drawFlower`.  The other methods only draw, and each of their calls is one
primitive carrying what the call draws from: `background` is
`setbkcolor(COLOR(r, g, b)); cleardevice()`, `sun` is `drawSun()` with the
centre it computes, `clouds` is `drawClouds()`, `soil` is `drawSoil()` with the
ground level it reads, `seed` is `drawSeed(x, y, angle, scale)`, `sprout` is the
`line` of the sprout, `seedling` is `drawSeedlingLeaves(x, y, progress)` and
`phaseInfo` is `displayPhaseInfo()` with the phase it names. -/
inductive Primitive where
  | segment (x1 y1 x2 y2 : Int) (depth : Int) (thickness : Int)
  | leaf (x y size : Int)
  | petal (x y size : Int)
  | flowerCentre (x y size : Int)
  | background (r g b : Int)
  | sun (x y : Int)
  | clouds
  | soil (groundLevel : Int)
  | seed (x y : Int) (angle scale : ℚ)
  | sprout (x1 y1 x2 y2 : Int)
  | seedling (x y : Int) (progress : ℚ)
  | phaseInfo (phase : Int)
  deriving DecidableEq, Repr

/-- The state threaded through one drawing pass: the object, the primitives
drawn so far (oldest first) and the number of `rand()` calls made so far. -/
structure Pass where
  drawer : AnimatedTreeDrawer
  drawn : List Primitive
  randCalls : Nat

/-- Whether a primitive is a branch segment. -/
def Primitive.isSegment : Primitive → Bool
  | .segment _ _ _ _ _ _ => true
  | _ => false

/-- Whether a primitive is the segment of a branch node of the given depth. -/
def Primitive.isSegmentAt (d : Int) : Primitive → Bool
  | .segment _ _ _ _ depth _ => decide (depth = d)
  | _ => false

/-- The number of line segments among the primitives drawn. -/
def Pass.segments (p : Pass) : Nat := p.drawn.countP Primitive.isSegment

/-- The number of segments drawn by branch nodes of depth `d`. -/
def Pass.segmentsAt (d : Int) (p : Pass) : Nat := p.drawn.countP (Primitive.isSegmentAt d)

namespace AnimatedTreeDrawer

/-- The petal loop of `drawFlower`: petals `i, i+1, ..., 4`. -/
def drawPetals (trig : Trig) (x y petalSize : Int) : Nat → Nat → List Primitive
  | _, 0 => []
  | i, n + 1 =>
    let angle : ℚ := (i : ℚ) * 2 * 3.14159 / 5
    let petalX := x + toInt ((petalSize : ℚ) * trig.cos angle)
    let petalY := y + toInt ((petalSize : ℚ) * trig.sin angle)
    Primitive.petal petalX petalY petalSize :: drawPetals trig x y petalSize (i + 1) n

/-- The method `drawFlower(x, y, scale)`. -/
def drawFlower (trig : Trig) (x y : Int) (scale : ℚ) (p : Pass) : Pass :=
  if scale ≤ 0 then p
  else
    let petalSize := toInt (4 * scale)
    { p with
      drawer := { p.drawer with flowerPositions := p.drawer.flowerPositions ++ [{ x := x, y := y }] }
      drawn := p.drawn ++ drawPetals trig x y petalSize 0 5 ++
        [Primitive.flowerCentre x y (petalSize - 1)] }

/-- The leaf loop of `drawBranch`: `numLeaves` iterations, two `rand()` calls
each. -/
def drawLeaves (rand : Nat → Int) (x2 y2 : Int) (scale : ℚ) : Nat → Pass → Pass
  | 0, p => p
  | n + 1, p =>
    let leafX := x2 + ((rand p.randCalls).tmod 10 - 5)
    let leafY := y2 + ((rand (p.randCalls + 1)).tmod 10 - 5)
    let leafSize := toInt (4 * scale)
    drawLeaves rand x2 y2 scale n
      { p with drawn := p.drawn ++ [Primitive.leaf leafX leafY leafSize],
               randCalls := p.randCalls + 2 }

/-- The local `branchProgress` of `drawBranch`. -/
def branchProgress (growthProgress : ℚ) (depth : Int) : ℚ :=
  min 1.0 (max 0.0 ((growthProgress * 10) - ((8 - depth : Int) : ℚ)))

/-- The rightmost-anchor update of `drawBranch` ("track rightmost position for
flower/seed"). -/
def trackRightmost (depth x2 y2 : Int) (p : Pass) : Pass :=
  if depth = 1 ∧ x2 > p.drawer.rightmostBranchX then
    { p with drawer := { p.drawer with rightmostBranchX := x2, rightmostBranchY := y2 } }
  else p

/-- The `line(x1, y1, x2, y2)` call of `drawBranch`, with the thickness chosen
just before it. -/
def drawSegment (x1 y1 x2 y2 depth : Int) (scale : ℚ) (p : Pass) : Pass :=
  let thickness : Int :=
    if depth > 4 then toInt ((depth : ℚ) * scale) + 1
    else max 1 (toInt ((depth : ℚ) * scale))
  { p with drawn := p.drawn ++ [Primitive.segment x1 y1 x2 y2 depth thickness] }

/-- The leaf decorations of `drawBranch`: two or three leaves near the tip of a
node with `depth <= 5`, `scale > 0.5` and `branchProgress > 0.8`. -/
def decorateLeaves (rand : Nat → Int) (x2 y2 depth : Int) (scale branchProgress : ℚ)
    (p : Pass) : Pass :=
  if depth ≤ 5 ∧ scale > 0.5 ∧ branchProgress > 0.8 then
    drawLeaves rand x2 y2 scale (if depth ≤ 3 then 3 else 2) p
  else p

/-- The flower of `drawBranch` ("draw flowers only at depth 1"). -/
def decorateFlower (trig : Trig) (x2 y2 depth : Int) (scale branchProgress : ℚ)
    (p : Pass) : Pass :=
  if depth = 1 ∧ p.drawer.showFlowers = true ∧ scale > 0.8 ∧ branchProgress > 0.9 then
    drawFlower trig x2 y2 p.drawer.flowerScale p
  else p

/-- The part of the body of `drawBranch` between the computation of the tip
`(x2, y2)` and the recursive calls: the rightmost-anchor update, the `line`
call, the leaf decorations and the flower, in this order. -/
def drawNode (trig : Trig) (rand : Nat → Int) (x1 y1 x2 y2 : Int) (depth : Int)
    (scale branchProgress : ℚ) (p : Pass) : Pass :=
  decorateFlower trig x2 y2 depth scale branchProgress
    (decorateLeaves rand x2 y2 depth scale branchProgress
      (drawSegment x1 y1 x2 y2 depth scale (trackRightmost depth x2 y2 p)))

/-- The body of `drawBranch`, with the recursion made structural: `fuel` bounds
the nesting of the calls.  `drawBranch` starts it with `depth` itself, which
the nesting never exceeds, since every call passes `depth - 1` and returns at
once when `depth <= 0` (see `drawBranch_eq`). -/
def drawBranchFuel (trig : Trig) (rand : Nat → Int) (scale growthProgress : ℚ) :
    Nat → Int → Int → ℚ → ℚ → Int → Pass → Pass
  | 0, _, _, _, _, _, p => p
  | fuel + 1, x1, y1, length, angle, depth, p =>
    if depth ≤ 0 ∨ scale ≤ 0.1 then p
    else
      if branchProgress growthProgress depth ≤ 0 then p
      else
        let scaledLength := length * scale * branchProgress growthProgress depth
        let x2 := x1 + toInt (scaledLength * trig.cos angle)
        let y2 := y1 - toInt (scaledLength * trig.sin angle)
        let p4 := drawNode trig rand x1 y1 x2 y2 depth scale (branchProgress growthProgress depth) p
        let newLength := length * 0.7
        let p5 := drawBranchFuel trig rand scale growthProgress fuel
          x2 y2 newLength (angle - 0.3) (depth - 1) p4
        let p6 := drawBranchFuel trig rand scale growthProgress fuel
          x2 y2 newLength (angle + 0.3) (depth - 1) p5
        drawBranchFuel trig rand scale growthProgress fuel
          x2 y2 (newLength * 0.8) angle (depth - 1) p6

/-- The method `drawBranch(x1, y1, length, angle, depth, scale, growthProgress)`. -/
def drawBranch (trig : Trig) (rand : Nat → Int) (x1 y1 : Int) (length angle : ℚ) (depth : Int)
    (scale growthProgress : ℚ) (p : Pass) : Pass :=
  drawBranchFuel trig rand scale growthProgress depth.toNat x1 y1 length angle depth p

/-- The number of nodes of a full three-way fan of the given depth whose depth
satisfies `g`: a node of depth `n + 1` has three subtrees of depth `n`. -/
def fanCount (g : Int → Bool) : Nat → Nat
  | 0 => 0
  | n + 1 => (if g ((n + 1 : Nat) : Int) then 1 else 0) + 3 * fanCount g n

/-- A pass that has drawn nothing yet, on the constructed object. -/
def emptyPass : Pass := { drawer := new, drawn := [], randCalls := 0 }

/-- Stand-ins for `cos` and `sin` holding their values at angle 0 everywhere. -/
def trigAtZero : Trig := { cos := fun _ => 1, sin := fun _ => 0 }

end AnimatedTreeDrawer

/-! ## Render pass -/

namespace AnimatedTreeDrawer

/-- The transform law of `render()` along x:
`(world + drawOffsetX) * zoomScale - (zoomScale - 1.0) * screenWidth / 2`. -/
def screenX (s : AnimatedTreeDrawer) (world : ℚ) : ℚ :=
  (world + (s.cameraOffsetX : ℚ)) * s.zoomScale - (s.zoomScale - 1.0) * (s.screenWidth : ℚ) / 2

/-- The transform law of `render()` along y:
`(world + drawOffsetY) * zoomScale - (zoomScale - 1.0) * screenHeight / 2`. -/
def screenY (s : AnimatedTreeDrawer) (world : ℚ) : ℚ :=
  (world + (s.cameraOffsetY : ℚ)) * s.zoomScale - (s.zoomScale - 1.0) * (s.screenHeight : ℚ) / 2

/-- One colour channel of the sky: `base - static_cast<int>(amplitude * -sin(sunAngle))`
clamped to 0..255. -/
def skyChannel (trig : Trig) (base amplitude : Int) (sunAngle : ℚ) : Int :=
  max 0 (min 255 (base - toInt ((amplitude : ℚ) * -trig.sin sunAngle)))

/-- The head of `render()`: the sky colour and `cleardevice()`. -/
def clearSky (trig : Trig) (p : Pass) : Pass :=
  { p with drawn := p.drawn ++
      [Primitive.background (skyChannel trig 100 50 p.drawer.sunAngle)
        (skyChannel trig 170 100 p.drawer.sunAngle) (skyChannel trig 200 80 p.drawer.sunAngle)] }

/-- The method `drawSun()`. -/
def drawSun (trig : Trig) (p : Pass) : Pass :=
  let sunX := toInt ((p.drawer.screenWidth : ℚ) * p.drawer.sunAngle / 3.14159)
  let sunY := toInt (150 * trig.sin p.drawer.sunAngle) + 50
  { p with drawn := p.drawn ++ [Primitive.sun sunX sunY] }

/-- The method `drawClouds()`. -/
def drawClouds (p : Pass) : Pass :=
  { p with drawn := p.drawn ++ [Primitive.clouds] }

/-- The method `drawSoil()`. -/
def drawSoil (p : Pass) : Pass :=
  { p with drawn := p.drawn ++ [Primitive.soil p.drawer.groundLevel] }

/-- The soil stage of `render()`: `groundLevel` is replaced by
`groundLevel + drawOffsetY` for the call of `drawSoil()` and put back after it. -/
def renderSoil (p : Pass) : Pass :=
  let transformedGroundLevel := p.drawer.groundLevel + p.drawer.cameraOffsetY
  let originalGroundLevel := p.drawer.groundLevel
  let p1 := drawSoil { p with drawer := { p.drawer with groundLevel := transformedGroundLevel } }
  { p1 with drawer := { p1.drawer with groundLevel := originalGroundLevel } }

/-- The method `drawSeed(x, y, angle, scale)`. -/
def drawSeed (x y : Int) (angle scale : ℚ) (p : Pass) : Pass :=
  { p with drawn := p.drawn ++ [Primitive.seed x y angle scale] }

/-- The stage "draw seed underground" of `render()`, with the sprout. -/
def renderSeed (p : Pass) : Pass :=
  if p.drawer.animationPhase ≤ 1 then
    let seedScale : ℚ :=
      1.0 + (if p.drawer.animationPhase = 0 then (p.drawer.phaseTimer : ℚ) / 20.0 else 2.0)
    let seedDrawX := toInt (screenX p.drawer (p.drawer.seedX : ℚ))
    let seedDrawY := toInt (screenY p.drawer (p.drawer.seedY : ℚ))
    let p1 := drawSeed seedDrawX seedDrawY 0 (seedScale * p.drawer.zoomScale) p
    if p1.drawer.animationPhase = 0 ∧ p1.drawer.phaseTimer > 20 then
      let sproutProgress : ℚ := ((p1.drawer.phaseTimer - 20 : Int) : ℚ) / 20.0
      let sproutLength := toInt (sproutProgress * 20 * p1.drawer.zoomScale)
      { p1 with drawn := p1.drawn ++
          [Primitive.sprout seedDrawX seedDrawY seedDrawX (seedDrawY - sproutLength)] }
    else p1
  else p

/-- The method `drawSeedlingLeaves(x, y, progress)`. -/
def drawSeedlingLeaves (x y : Int) (progress : ℚ) (p : Pass) : Pass :=
  { p with drawn := p.drawn ++ [Primitive.seedling x y progress] }

/-- Stage 1 of `render()`: the seedling stem and leaves. -/
def renderSeedling (p : Pass) : Pass :=
  if p.drawer.animationPhase = 1 then
    let leafProgress : ℚ := (p.drawer.phaseTimer : ℚ) / 60.0
    let leafDrawX := toInt (screenX p.drawer (p.drawer.seedX : ℚ))
    let baseY : ℚ := (p.drawer.seedY : ℚ) +
      leafProgress * ((p.drawer.groundLevel - p.drawer.seedY : Int) : ℚ)
    let leafDrawY := toInt (screenY p.drawer baseY)
    drawSeedlingLeaves leafDrawX leafDrawY leafProgress p
  else p

/-- Stages 2-3 of `render()`: the tree, the only generation pass of the frame. -/
def renderTree (trig : Trig) (rand : Nat → Int) (p : Pass) : Pass :=
  if p.drawer.animationPhase ≥ 2 ∨ (p.drawer.animationPhase = 1 ∧ p.drawer.phaseTimer > 50) then
    let blendFactor : ℚ :=
      if p.drawer.animationPhase = 1 then ((p.drawer.phaseTimer - 50 : Int) : ℚ) / 10.0 else 1.0
    let startX := toInt (screenX p.drawer (p.drawer.seedX : ℚ))
    let startY := toInt (screenY p.drawer (p.drawer.groundLevel : ℚ))
    let trunkLength := toInt (150 * p.drawer.zoomScale)
    let initialAngle : ℚ := 3.14159 / 2
    if p.drawer.treeGrowthScale > 0.01 then
      drawBranch trig rand startX startY (trunkLength : ℚ) initialAngle 8
        (p.drawer.treeGrowthScale * blendFactor) (p.drawer.treeGrowthScale * blendFactor) p
    else p
  else p

/-- The loop "draw falling seed" of `render()` over the seeds given. -/
def drawFallingSeeds : List Seed → Pass → Pass
  | [], p => p
  | seed :: rest, p =>
    if seed.active then
      let centerX := p.drawer.screenWidth.tdiv 2
      let centerY := p.drawer.screenHeight.tdiv 2
      drawFallingSeeds rest (drawSeed centerX centerY seed.angle (p.drawer.zoomScale * 2.0) p)
    else drawFallingSeeds rest p

/-- The method `displayPhaseInfo()`. -/
def displayPhaseInfo (p : Pass) : Pass :=
  { p with drawn := p.drawn ++ [Primitive.phaseInfo p.drawer.animationPhase] }

/-- The method `render()`.  The page flips (`setactivepage`, `setvisualpage`)
are state of the graphics library and are not recorded. -/
def render (trig : Trig) (rand : Nat → Int) (p : Pass) : Pass :=
  let p1 := drawClouds (drawSun trig (clearSky trig p))
  let p2 := renderSoil p1
  let p3 := renderSeed p2
  let p4 := renderSeedling p3
  let p5 := renderTree trig rand p4
  let p6 := drawFallingSeeds p5.drawer.fallingSeeds p5
  displayPhaseInfo p6

/-- The clearing the spec places before each generation pass, as assignments to
the two accumulators: `flowerPositions.clear(); rightmostBranchX = 0;
rightmostBranchY = 0;`.  In the source these three statements occur in
`resetAnimation()` only. -/
def clearAccumulators (p : Pass) : Pass :=
  { p with drawer :=
      { p.drawer with flowerPositions := [], rightmostBranchX := 0, rightmostBranchY := 0 } }

/-- The pass `b` with earlier accumulator contents put under it: the flower
positions `f0` come first, and the anchor of `b` stands only if it lies strictly
to the right of the earlier `x0`, otherwise the earlier anchor `(x0, y0)` does. -/
def withEarlier (x0 y0 : Int) (f0 : List Point) (b : Pass) : Pass :=
  { b with drawer :=
      { b.drawer with
        flowerPositions := f0 ++ b.drawer.flowerPositions
        rightmostBranchX := if b.drawer.rightmostBranchX > x0 then b.drawer.rightmostBranchX else x0
        rightmostBranchY := if b.drawer.rightmostBranchX > x0 then b.drawer.rightmostBranchY else y0 } }

/-- The tip `(x2, y2)` of a primitive that is the segment of a depth-1 branch
node; other primitives have none. -/
def Primitive.tip? : Primitive → Option (Int × Int)
  | .segment _ _ x2 y2 depth _ => if depth = 1 then some (x2, y2) else none
  | _ => none

/-- The depth-1 tips among the primitives, in drawing order. -/
def tipsDrawn (drawn : List Primitive) : List (Int × Int) := drawn.filterMap Primitive.tip?

/-- The position of a primitive that is the centre of a flower; other
primitives have none. -/
def Primitive.flower? : Primitive → Option Point
  | .flowerCentre x y _ => some { x := x, y := y }
  | _ => none

/-- The positions of the flowers among the primitives, in drawing order. -/
def flowersDrawn (drawn : List Primitive) : List Point := drawn.filterMap Primitive.flower?

/-- The rule "rightmost wins" of `drawBranch` run over a list of tips from a
given anchor: a tip replaces the anchor when its x is strictly greater. -/
def rightmostFrom (anchor : Int × Int) (tips : List (Int × Int)) : Int × Int :=
  tips.foldl (fun a t => if t.1 > a.1 then t else a) anchor

/-- The pass `q` continues the pass `p`: it has drawn the primitives of `p` and
some more, its flower positions are those of `p` followed by the positions of
the flowers among the new primitives, and its anchor is the one of `p` taken
over the depth-1 tips among the new primitives by the rule "rightmost wins". -/
def Continues (p q : Pass) : Prop :=
  ∃ added : List Primitive,
    q.drawn = p.drawn ++ added ∧
      q.drawer.flowerPositions = p.drawer.flowerPositions ++ flowersDrawn added ∧
      (q.drawer.rightmostBranchX, q.drawer.rightmostBranchY) =
        rightmostFrom (p.drawer.rightmostBranchX, p.drawer.rightmostBranchY) (tipsDrawn added)

/-- A frame that has drawn nothing yet, on a state late in the Reset phase
whose accumulators hold the flower position and anchor (520, 210) of earlier
frames. -/
def lateResetPass : Pass := { drawer := resetExpiring, drawn := [], randCalls := 0 }

/-- A frame that has drawn nothing yet, on a state at the end of the Flowering
phase whose accumulators hold a flower position and the anchor (520, 210) of
earlier frames. -/
def lateFloweringPass : Pass :=
  { drawer := { floweringTipRecorded with flowerPositions := [{ x := 520, y := 210 }] }
    drawn := []
    randCalls := 0 }

end AnimatedTreeDrawer

/-! ## Phase controller: sequencing and timer -/

namespace AnimatedTreeDrawer

theorem advanceSun_animationPhase (e : ℚ) (s : AnimatedTreeDrawer) :
    (advanceSun e s).animationPhase = s.animationPhase := rfl

theorem advanceSun_phaseTimer (e : ℚ) (s : AnimatedTreeDrawer) :
    (advanceSun e s).phaseTimer = s.phaseTimer := rfl

theorem updateCamera_animationPhase (s : AnimatedTreeDrawer) :
    (updateCamera s).animationPhase = s.animationPhase := by
  unfold updateCamera
  split <;> split <;> rfl

theorem updateCamera_phaseTimer (s : AnimatedTreeDrawer) :
    (updateCamera s).phaseTimer = s.phaseTimer := by
  unfold updateCamera
  split <;> split <;> rfl

theorem updateCamera_fallingSeeds (s : AnimatedTreeDrawer) :
    (updateCamera s).fallingSeeds = s.fallingSeeds := by
  unfold updateCamera
  split <;> split <;> rfl

/-- What one `switch` arm does to phase and timer: either both are kept, or the
phase moves to its successor modulo 6 and the timer is cleared. -/
theorem updatePhase_phase_timer (s : AnimatedTreeDrawer)
    (h0 : 0 ≤ s.animationPhase) (h5 : s.animationPhase ≤ 5) :
    ((updatePhase s).animationPhase = s.animationPhase ∧
        (updatePhase s).phaseTimer = s.phaseTimer) ∨
      ((updatePhase s).animationPhase = (s.animationPhase + 1) % 6 ∧
        (updatePhase s).animationPhase ≠ s.animationPhase ∧
        (updatePhase s).phaseTimer = 0) := by
  have hcases : s.animationPhase = 0 ∨ s.animationPhase = 1 ∨ s.animationPhase = 2 ∨
      s.animationPhase = 3 ∨ s.animationPhase = 4 ∨ s.animationPhase = 5 := by omega
  rcases hcases with h | h | h | h | h | h
  · simp only [updatePhase, h, if_true, updateGermination]
    split
    · left; exact ⟨rfl, rfl⟩
    · right; simp
  · simp only [updatePhase, h, updateSeedling]
    norm_num
    split
    · left; exact ⟨rfl, rfl⟩
    · right; simp
  · simp only [updatePhase, h, updateGrowth]
    norm_num
    split
    · left; exact ⟨rfl, rfl⟩
    · right; simp
  · simp only [updatePhase, h, updateFlowering]
    norm_num
    split
    · left; exact ⟨rfl, rfl⟩
    · right; simp
  · simp only [updatePhase, h, updateDispersal]
    norm_num
    split
    · right; simp
    · left
      rw [updateCamera_animationPhase, updateCamera_phaseTimer]
      exact ⟨h, rfl⟩
  · simp only [updatePhase, h, updateReset]
    norm_num
    split
    · left; exact ⟨rfl, rfl⟩
    · right; simp [resetAnimation]

/-- C1: for every state whose phase `p` is in `0..5`, one `update()` call leaves
the phase at `p` or moves it to `(p + 1) mod 6`; when the phase changes the new
`phaseTimer` is 0, and when it does not the `phaseTimer` has grown by exactly 2. -/
theorem update_phase_sequence (elapsedSeconds : ℚ) (s : AnimatedTreeDrawer)
    (h0 : 0 ≤ s.animationPhase) (h5 : s.animationPhase ≤ 5) :
    ((update elapsedSeconds s).animationPhase = s.animationPhase ∨
        (update elapsedSeconds s).animationPhase = (s.animationPhase + 1) % 6) ∧
      ((update elapsedSeconds s).animationPhase ≠ s.animationPhase →
        (update elapsedSeconds s).phaseTimer = 0) ∧
      ((update elapsedSeconds s).animationPhase = s.animationPhase →
        (update elapsedSeconds s).phaseTimer = s.phaseTimer + 2) := by
  have key := updatePhase_phase_timer { s with phaseTimer := s.phaseTimer + 2 } h0 h5
  simp only [update, advanceSun_animationPhase, advanceSun_phaseTimer]
  rcases key with ⟨hp, ht⟩ | ⟨hp, hne, ht⟩
  · refine ⟨Or.inl hp, fun hn => absurd hp hn, fun _ => ht⟩
  · refine ⟨Or.inr hp, fun _ => ht, fun he => absurd he hne⟩

/-- Witness for C1 at a state in the Reset phase whose timer expires: the phase
wraps from 5 to 0 and the timer is cleared. -/
theorem update_phase_sequence_witness :
    (0 ≤ resetExpiring.animationPhase ∧ resetExpiring.animationPhase ≤ 5) ∧
      ((update (33 / 1000) resetExpiring).animationPhase = resetExpiring.animationPhase ∨
        (update (33 / 1000) resetExpiring).animationPhase =
          (resetExpiring.animationPhase + 1) % 6) ∧
      (update (33 / 1000) resetExpiring).animationPhase ≠ resetExpiring.animationPhase ∧
      (update (33 / 1000) resetExpiring).phaseTimer = 0 :=
  ⟨⟨by decide, by decide⟩,
    (update_phase_sequence (33 / 1000) resetExpiring (by decide) (by decide)).1,
    by decide!,
    (update_phase_sequence (33 / 1000) resetExpiring (by decide) (by decide)).2.1 (by decide!)⟩

/-! ## Full reset -/

theorem resetAnimation_hasConstructedValues (s : AnimatedTreeDrawer)
    (hw : s.screenWidth = 800) (hg : s.groundLevel = 480) :
    HasConstructedValues (resetAnimation s) := by
  simp only [HasConstructedValues, resetAnimation, hw, hg]
  norm_num
  rfl

/-- C2: with the window width 800 and the ground level 480 the constructor
sets, `resetAnimation()` applied to any state yields the constructed values
(0, 0, false, 0, 0, empty, empty, 400, 505, 1, 0, 0, 0, 0) of the fourteen
fields of the reset contract, which are those of the constructed object; so
does `update()` on the tick at which the Reset phase expires. -/
theorem reset_restores_constructed_values (s : AnimatedTreeDrawer)
    (hw : s.screenWidth = 800) (hg : s.groundLevel = 480) :
    HasConstructedValues new ∧
      HasConstructedValues (resetAnimation s) ∧
      ∀ elapsedSeconds : ℚ, s.animationPhase = 5 → 50 ≤ s.phaseTimer + 2 →
        HasConstructedValues (update elapsedSeconds s) := by
  refine ⟨by decide!, resetAnimation_hasConstructedValues s hw hg, ?_⟩
  intro e h5 hexp
  have hnot : ¬ (s.phaseTimer + 2 < 50) := by omega
  have hupd : updatePhase { s with phaseTimer := s.phaseTimer + 2 } =
      resetAnimation { s with phaseTimer := s.phaseTimer + 2 } := by
    simp [updatePhase, h5, updateReset, hnot]
  have hres := resetAnimation_hasConstructedValues { s with phaseTimer := s.phaseTimer + 2 } hw hg
  unfold update
  rw [hupd]
  exact hres

/-- Witness for C2 at a state late in the Reset phase. -/
theorem reset_restores_constructed_values_witness :
    (resetExpiring.screenWidth = 800 ∧ resetExpiring.groundLevel = 480) ∧
      HasConstructedValues new ∧
      HasConstructedValues (resetAnimation resetExpiring) ∧
      (resetExpiring.animationPhase = 5 ∧ 50 ≤ resetExpiring.phaseTimer + 2) ∧
      HasConstructedValues (update (33 / 1000) resetExpiring) :=
  ⟨⟨by decide, by decide⟩,
    (reset_restores_constructed_values resetExpiring (by decide) (by decide)).1,
    (reset_restores_constructed_values resetExpiring (by decide) (by decide)).2.1,
    ⟨by decide, by decide⟩,
    (reset_restores_constructed_values resetExpiring (by decide) (by decide)).2.2 (33 / 1000)
      (by decide) (by decide)⟩

/-! ## Germination -/

theorem advanceSun_treeGrowthScale (e : ℚ) (s : AnimatedTreeDrawer) :
    (advanceSun e s).treeGrowthScale = s.treeGrowthScale := rfl

theorem run_nil (s : AnimatedTreeDrawer) : run [] s = s := rfl

theorem run_cons (e : ℚ) (ticks : List ℚ) (s : AnimatedTreeDrawer) :
    run (e :: ticks) s = run ticks (update e s) := rfl

theorem run_append (ticks more : List ℚ) (s : AnimatedTreeDrawer) :
    run (ticks ++ more) s = run more (run ticks s) := by
  simp [run, List.foldl_append]

/-- A Germination tick whose timer stays below 40 keeps the phase, adds 2 to the
timer and holds the growth scale at 0. -/
theorem update_germination_hold (e : ℚ) (s : AnimatedTreeDrawer)
    (hp : s.animationPhase = 0) (ht : s.phaseTimer + 2 < 40) :
    (update e s).animationPhase = 0 ∧ (update e s).phaseTimer = s.phaseTimer + 2 ∧
      (update e s).treeGrowthScale = 0 := by
  simp only [update, advanceSun_animationPhase, advanceSun_phaseTimer,
    advanceSun_treeGrowthScale, updatePhase, hp, if_true, updateGermination, ht]
  norm_num

/-- A Germination tick whose timer reaches 40 enters Seedling with timer 0 and
leaves the growth scale as it was. -/
theorem update_germination_expire (e : ℚ) (s : AnimatedTreeDrawer)
    (hp : s.animationPhase = 0) (ht : 40 ≤ s.phaseTimer + 2) :
    (update e s).animationPhase = 1 ∧ (update e s).phaseTimer = 0 ∧
      (update e s).treeGrowthScale = s.treeGrowthScale := by
  have hnot : ¬ (s.phaseTimer + 2 < 40) := by omega
  simp only [update, advanceSun_animationPhase, advanceSun_phaseTimer,
    advanceSun_treeGrowthScale, updatePhase, hp, if_true, updateGermination, hnot, if_false,
    and_self]

/-- Germination ticks that keep the timer below 40, from any Germination state
with growth scale 0. -/
theorem run_germination_hold (ticks : List ℚ) :
    ∀ s : AnimatedTreeDrawer, s.animationPhase = 0 → s.treeGrowthScale = 0 →
      s.phaseTimer + 2 * (ticks.length : Int) < 40 →
      (run ticks s).animationPhase = 0 ∧
        (run ticks s).phaseTimer = s.phaseTimer + 2 * (ticks.length : Int) ∧
        (run ticks s).treeGrowthScale = 0 := by
  induction ticks with
  | nil => intro s hp hg _; simp [run_nil, hp, hg]
  | cons e rest ih =>
    intro s hp hg hlen
    simp only [List.length_cons, Nat.cast_add, Nat.cast_one] at hlen
    obtain ⟨hp1, ht1, hg1⟩ := update_germination_hold e s hp (by omega)
    obtain ⟨hp2, ht2, hg2⟩ := ih (update e s) hp1 hg1 (by omega)
    rw [run_cons]
    refine ⟨hp2, ?_, hg2⟩
    rw [ht2, ht1]
    simp only [List.length_cons, Nat.cast_add, Nat.cast_one]
    ring

/-- C3: from the freshly constructed state, or from the state `resetAnimation()`
leaves, after `k < 20` calls of `update()` the phase is still Germination (0)
with `phaseTimer = 2k` and `treeGrowthScale = 0`; after exactly 20 calls the
phase is Seedling (1) with `phaseTimer = 0` and `treeGrowthScale = 0`. -/
theorem germination_run (s0 : AnimatedTreeDrawer)
    (hstart : s0 = new ∨ ∃ s, s0 = resetAnimation s) (ticks : List ℚ) :
    (ticks.length < 20 →
        (run ticks s0).animationPhase = 0 ∧
          (run ticks s0).phaseTimer = 2 * (ticks.length : Int) ∧
          (run ticks s0).treeGrowthScale = 0) ∧
      (ticks.length = 20 →
        (run ticks s0).animationPhase = 1 ∧ (run ticks s0).phaseTimer = 0 ∧
          (run ticks s0).treeGrowthScale = 0) := by
  have hfresh : s0.animationPhase = 0 ∧ s0.phaseTimer = 0 ∧ s0.treeGrowthScale = 0 := by
    rcases hstart with h | ⟨s, h⟩
    · subst h; exact ⟨rfl, rfl, by norm_num [new]⟩
    · subst h; exact ⟨rfl, rfl, by norm_num [resetAnimation]⟩
  obtain ⟨hp, ht, hg⟩ := hfresh
  constructor
  · intro hlen
    have h := run_germination_hold ticks s0 hp hg (by omega)
    rw [ht, zero_add] at h
    exact h
  · intro hlen
    obtain ⟨front, e, rfl⟩ : ∃ front e, ticks = front ++ [e] := by
      rcases List.eq_nil_or_concat ticks with h | ⟨front, e, h⟩
      · rw [h] at hlen; simp at hlen
      · exact ⟨front, e, by simpa using h⟩
    have hfront : front.length = 19 := by simpa using hlen
    obtain ⟨hp1, ht1, hg1⟩ := run_germination_hold front s0 hp hg (by omega)
    rw [run_append, run_cons, run_nil]
    obtain ⟨hp2, ht2, hg2⟩ := update_germination_expire e (run front s0) hp1 (by omega)
    exact ⟨hp2, ht2, by rw [hg2, hg1]⟩

/-- Witness for C3: seven ticks, then twenty ticks, from the constructed state. -/
theorem germination_run_witness :
    (new = new ∨ ∃ s, new = resetAnimation s) ∧
      ((frames 7).length < 20 ∧
        (run (frames 7) new).animationPhase = 0 ∧
        (run (frames 7) new).phaseTimer = 2 * ((frames 7).length : Int) ∧
        (run (frames 7) new).treeGrowthScale = 0) ∧
      ((frames 20).length = 20 ∧
        (run (frames 20) new).animationPhase = 1 ∧
        (run (frames 20) new).phaseTimer = 0 ∧
        (run (frames 20) new).treeGrowthScale = 0) :=
  ⟨Or.inl rfl,
    ⟨by decide, (germination_run new (Or.inl rfl) (frames 7)).1 (by decide)⟩,
    ⟨by decide, (germination_run new (Or.inl rfl) (frames 20)).2 (by decide)⟩⟩

/-! ## Flowering expiry: the spawned seed -/

theorem advanceSun_fallingSeeds (e : ℚ) (s : AnimatedTreeDrawer) :
    (advanceSun e s).fallingSeeds = s.fallingSeeds := rfl

/-- The Flowering arm on expiry: Dispersal, timer 0, the seed list is exactly
the one new seed built from the state before the tick. -/
theorem update_flowering_expire (e : ℚ) (s : AnimatedTreeDrawer)
    (hp : s.animationPhase = 3) (ht : 25 ≤ s.phaseTimer + 2) :
    (update e s).animationPhase = 4 ∧ (update e s).phaseTimer = 0 ∧
      (update e s).fallingSeeds = [newSeed s] := by
  have hnot : ¬ (s.phaseTimer + 2 < 25) := by omega
  simp only [update, advanceSun_animationPhase, advanceSun_phaseTimer, advanceSun_fallingSeeds,
    updatePhase, hp, updateFlowering, hnot, if_false]
  norm_num
  rfl

/-- C4, as stated, fails: with the recorded anchor (650, -20), a tip above the
top edge of the window, the Flowering expiry spawns the single seed at
(650, 330), which is neither the recorded anchor nor the fallback
(seedX + 100, groundLevel - 150) = (500, 330) but a mixture of the two. -/
theorem flowering_expiry_mixed_spawn :
    floweringTipAboveWindow.animationPhase = 3 ∧
      25 ≤ floweringTipAboveWindow.phaseTimer + 2 ∧
      ∃ seed : Seed,
        (update (33 / 1000) floweringTipAboveWindow).fallingSeeds = [seed] ∧
          seed.x = 650 ∧ seed.y = 330 ∧
          ¬ (seed.x = (floweringTipAboveWindow.rightmostBranchX : ℚ) ∧
              seed.y = (floweringTipAboveWindow.rightmostBranchY : ℚ)) ∧
          ¬ (seed.x = ((floweringTipAboveWindow.seedX + 100 : Int) : ℚ) ∧
              seed.y = ((floweringTipAboveWindow.groundLevel - 150 : Int) : ℚ)) := by
  refine ⟨rfl, by decide, newSeed floweringTipAboveWindow, ?_, ?_, ?_, ?_, ?_⟩
  · exact (update_flowering_expire _ _ rfl (by decide)).2.2
  · decide!
  · decide!
  · decide!
  · decide!

/-- C4, amended: for every Flowering state whose timer expires on this tick
(`phaseTimer + 2 >= 25`) and every anchor value, one `update()` moves to
Dispersal with timer 0 and `fallingSeeds` holding exactly one seed, active, with
angle 0 and velocityY 0; its position is exactly the recorded anchor when both
anchor coordinates are positive, and exactly the fallback
(seedX + 100, groundLevel - 150) when neither is (as when no anchor was
recorded and both are 0). -/
theorem flowering_expiry_spawns_seed (elapsedSeconds : ℚ) (s : AnimatedTreeDrawer)
    (hp : s.animationPhase = 3) (ht : 25 ≤ s.phaseTimer + 2) :
    (update elapsedSeconds s).animationPhase = 4 ∧
      (update elapsedSeconds s).phaseTimer = 0 ∧
      (∃ seed : Seed,
        (update elapsedSeconds s).fallingSeeds = [seed] ∧
          seed.active = true ∧ seed.angle = 0 ∧ seed.velocityY = 0) ∧
      (0 < s.rightmostBranchX → 0 < s.rightmostBranchY →
        (update elapsedSeconds s).fallingSeeds =
          [{ x := (s.rightmostBranchX : ℚ), y := (s.rightmostBranchY : ℚ), angle := 0,
             velocityY := 0, active := true }]) ∧
      (s.rightmostBranchX ≤ 0 → s.rightmostBranchY ≤ 0 →
        (update elapsedSeconds s).fallingSeeds =
          [{ x := ((s.seedX + 100 : Int) : ℚ), y := ((s.groundLevel - 150 : Int) : ℚ),
             angle := 0, velocityY := 0, active := true }]) := by
  obtain ⟨h4, h0, hseeds⟩ := update_flowering_expire elapsedSeconds s hp ht
  refine ⟨h4, h0, ⟨newSeed s, hseeds, rfl, rfl, rfl⟩, ?_, ?_⟩
  · intro hx hy
    rw [hseeds]
    simp only [newSeed, gt_iff_lt, hx, hy, if_true]
  · intro hx hy
    have hx2 : ¬ (0 < s.rightmostBranchX) := by omega
    have hy2 : ¬ (0 < s.rightmostBranchY) := by omega
    rw [hseeds]
    simp only [newSeed, gt_iff_lt, hx2, hy2, if_false]

/-- Witness for C4 (amended): a Flowering state with the anchor (520, 210)
recorded, and one with no anchor recorded. -/
theorem flowering_expiry_spawns_seed_witness :
    ((floweringTipRecorded.animationPhase = 3 ∧ 25 ≤ floweringTipRecorded.phaseTimer + 2) ∧
        (update (33 / 1000) floweringTipRecorded).animationPhase = 4 ∧
        (update (33 / 1000) floweringTipRecorded).fallingSeeds =
          [{ x := 520, y := 210, angle := 0, velocityY := 0, active := true }]) ∧
      ((floweringNoAnchor.animationPhase = 3 ∧ 25 ≤ floweringNoAnchor.phaseTimer + 2) ∧
        (update (33 / 1000) floweringNoAnchor).animationPhase = 4 ∧
        (update (33 / 1000) floweringNoAnchor).fallingSeeds =
          [{ x := ((400 + 100 : Int) : ℚ), y := ((480 - 150 : Int) : ℚ), angle := 0,
             velocityY := 0, active := true }]) :=
  ⟨⟨⟨rfl, by decide⟩,
      (flowering_expiry_spawns_seed (33 / 1000) floweringTipRecorded rfl (by decide)).1,
      (flowering_expiry_spawns_seed (33 / 1000) floweringTipRecorded rfl (by decide)).2.2.2.1
        (by decide) (by decide)⟩,
    ⟨⟨rfl, by decide⟩,
      (flowering_expiry_spawns_seed (33 / 1000) floweringNoAnchor rfl (by decide)).1,
      (flowering_expiry_spawns_seed (33 / 1000) floweringNoAnchor rfl (by decide)).2.2.2.2
        (by decide) (by decide)⟩⟩

/-! ## Growth and flower scales -/

theorem advanceSun_flowerScale (e : ℚ) (s : AnimatedTreeDrawer) :
    (advanceSun e s).flowerScale = s.flowerScale := rfl

theorem updateCamera_treeGrowthScale (s : AnimatedTreeDrawer) :
    (updateCamera s).treeGrowthScale = s.treeGrowthScale := by
  unfold updateCamera
  split <;> split <;> rfl

theorem updateCamera_flowerScale (s : AnimatedTreeDrawer) :
    (updateCamera s).flowerScale = s.flowerScale := by
  unfold updateCamera
  split <;> split <;> rfl

theorem scalesInvariant_advanceSun (e : ℚ) (s : AnimatedTreeDrawer)
    (h : ScalesInvariant s) : ScalesInvariant (advanceSun e s) := h

theorem scalesInvariant_new : ScalesInvariant new := by
  simp only [ScalesInvariant, new]
  norm_num

theorem scalesInvariant_resetAnimation (s : AnimatedTreeDrawer) :
    ScalesInvariant (resetAnimation s) := by
  simp only [ScalesInvariant, resetAnimation]
  norm_num

theorem scalesInvariant_updateGermination (s : AnimatedTreeDrawer)
    (hp : s.animationPhase = 0) (h : ScalesInvariant s) :
    ScalesInvariant (updateGermination { s with phaseTimer := s.phaseTimer + 2 }) := by
  obtain ⟨ht, ⟨hg0, hg1⟩, ⟨hf0, hf1⟩, h0, h1, h2, hf, h3⟩ := h
  have hg := h0 hp
  have hfz := hf (Or.inl hp)
  unfold updateGermination
  split
  · simp only [ScalesInvariant, hp]
    norm_num
    exact ⟨by omega, ⟨hf0, hf1⟩, hfz⟩
  · simp only [ScalesInvariant, hg, hfz]
    norm_num

theorem scalesInvariant_updateSeedling (s : AnimatedTreeDrawer)
    (hp : s.animationPhase = 1) (h : ScalesInvariant s) :
    ScalesInvariant (updateSeedling { s with phaseTimer := s.phaseTimer + 2 }) := by
  obtain ⟨ht, ⟨hg0, hg1⟩, ⟨hf0, hf1⟩, h0, h1, h2, hf, h3⟩ := h
  have hg := h1 hp
  have hfz := hf (Or.inr (Or.inl hp))
  have htq : (0 : ℚ) ≤ (s.phaseTimer : ℚ) := by exact_mod_cast ht
  unfold updateSeedling
  split
  · simp only [ScalesInvariant, hp, hfz]
    norm_num
    exact ⟨by omega, by positivity⟩
  · simp only [ScalesInvariant, hfz]
    norm_num
    norm_num at hg
    exact ⟨⟨hg0, hg1⟩, hg⟩

theorem scalesInvariant_updateGrowth (s : AnimatedTreeDrawer)
    (hp : s.animationPhase = 2) (h : ScalesInvariant s) :
    ScalesInvariant (updateGrowth { s with phaseTimer := s.phaseTimer + 2 }) := by
  obtain ⟨ht, ⟨hg0, hg1⟩, ⟨hf0, hf1⟩, h0, h1, h2, hf, h3⟩ := h
  have hfz := hf (Or.inr (Or.inr hp))
  have htq : (0 : ℚ) ≤ (s.phaseTimer : ℚ) := by exact_mod_cast ht
  unfold updateGrowth
  split
  · rename_i hlt
    have hltq : ((s.phaseTimer + 2 : Int) : ℚ) < 100 := by exact_mod_cast hlt
    push_cast at hltq
    simp only [ScalesInvariant, hp, hfz]
    norm_num
    refine ⟨by omega, ?_, ?_⟩
    · positivity
    · linarith
  · simp only [ScalesInvariant, hfz]
    norm_num
    exact ⟨hg0, hg1⟩

theorem scalesInvariant_updateFlowering (s : AnimatedTreeDrawer)
    (hp : s.animationPhase = 3) (h : ScalesInvariant s) :
    ScalesInvariant (updateFlowering { s with phaseTimer := s.phaseTimer + 2 }) := by
  obtain ⟨ht, ⟨hg0, hg1⟩, ⟨hf0, hf1⟩, h0, h1, h2, hf, h3⟩ := h
  have htq : (0 : ℚ) ≤ (s.phaseTimer : ℚ) := by exact_mod_cast ht
  unfold updateFlowering
  split
  · rename_i hlt
    have hltq : ((s.phaseTimer + 2 : Int) : ℚ) < 25 := by exact_mod_cast hlt
    push_cast at hltq
    simp only [ScalesInvariant, hp]
    norm_num
    refine ⟨by omega, ⟨hg0, hg1⟩, ?_, ?_⟩
    · positivity
    · linarith
  · simp only [ScalesInvariant]
    norm_num
    exact ⟨⟨hg0, hg1⟩, hf0, hf1⟩

theorem scalesInvariant_updateDispersal (s : AnimatedTreeDrawer)
    (hp : s.animationPhase = 4) (h : ScalesInvariant s) :
    ScalesInvariant (updateDispersal { s with phaseTimer := s.phaseTimer + 2 }) := by
  obtain ⟨ht, ⟨hg0, hg1⟩, ⟨hf0, hf1⟩, h0, h1, h2, hf, h3⟩ := h
  simp only [updateDispersal]
  split
  · simp only [ScalesInvariant, updateCamera_treeGrowthScale, updateCamera_flowerScale]
    norm_num
    exact ⟨⟨hg0, hg1⟩, hf0, hf1⟩
  · simp only [ScalesInvariant, updateCamera_treeGrowthScale, updateCamera_flowerScale,
      updateCamera_animationPhase, updateCamera_phaseTimer]
    simp only [updateFallingSeeds, hp]
    norm_num
    exact ⟨by omega, ⟨hg0, hg1⟩, hf0, hf1⟩

theorem scalesInvariant_updateReset (s : AnimatedTreeDrawer)
    (hp : s.animationPhase = 5) (h : ScalesInvariant s) :
    ScalesInvariant (updateReset { s with phaseTimer := s.phaseTimer + 2 }) := by
  obtain ⟨ht, ⟨hg0, hg1⟩, ⟨hf0, hf1⟩, h0, h1, h2, hf, h3⟩ := h
  have htq : (0 : ℚ) ≤ (s.phaseTimer : ℚ) := by exact_mod_cast ht
  unfold updateReset
  split
  · rename_i hlt
    have hltq : ((s.phaseTimer + 2 : Int) : ℚ) < 50 := by exact_mod_cast hlt
    push_cast at hltq
    simp only [ScalesInvariant, hp]
    norm_num
    refine ⟨by omega, ?_, ?_⟩
    · linarith
    · positivity
  · exact scalesInvariant_resetAnimation _

/-- One `update()` call preserves the invariant of the scales. -/
theorem scalesInvariant_update (e : ℚ) (s : AnimatedTreeDrawer) (h : ScalesInvariant s) :
    ScalesInvariant (update e s) := by
  unfold update
  apply scalesInvariant_advanceSun
  unfold updatePhase
  split
  · exact scalesInvariant_updateGermination s (by assumption) h
  split
  · exact scalesInvariant_updateSeedling s (by assumption) h
  split
  · exact scalesInvariant_updateGrowth s (by assumption) h
  split
  · exact scalesInvariant_updateFlowering s (by assumption) h
  split
  · exact scalesInvariant_updateDispersal s (by assumption) h
  split
  · exact scalesInvariant_updateReset s (by assumption) h
  · rename_i n0 n1 n2 n3 n4 n5
    obtain ⟨ht, hg, hfl, h0, h1, h2, hf, h3⟩ := h
    simp only [ScalesInvariant] at *
    refine ⟨by omega, hg, hfl, fun a => absurd a n0, fun a => absurd a n1,
      fun a => absurd a n2, ?_, fun a => absurd a n3⟩
    rintro (a | a | a)
    · exact absurd a n0
    · exact absurd a n1
    · exact absurd a n2

/-- Every reachable state satisfies the invariant of the scales. -/
theorem scalesInvariant_of_reachable (s : AnimatedTreeDrawer) (h : Reachable s) :
    ScalesInvariant s := by
  induction h with
  | constructed => exact scalesInvariant_new
  | update e _ ih => exact scalesInvariant_update e _ ih
  | resetAnimation _ _ => exact scalesInvariant_resetAnimation _
  | render x y flowers _ ih => exact ih

theorem reachable_run (ticks : List ℚ) :
    ∀ s : AnimatedTreeDrawer, Reachable s → Reachable (run ticks s) := by
  induction ticks with
  | nil => intro s h; exact h
  | cons e rest ih => intro s h; exact ih _ (Reachable.update e h)

/-- C5: in every state reached from the constructed one, a tick taken in the
Growth phase (2) never lowers `treeGrowthScale` (the first Growth tick
continues from the value Seedling left, the last one leaves the scale as it
is), and a tick taken in the Flowering phase (3) never lowers `flowerScale`. -/
theorem scales_nondecreasing_within_phase (s : AnimatedTreeDrawer) (hr : Reachable s)
    (elapsedSeconds : ℚ) :
    (s.animationPhase = 2 →
        s.treeGrowthScale ≤ (update elapsedSeconds s).treeGrowthScale) ∧
      (s.animationPhase = 3 →
        s.flowerScale ≤ (update elapsedSeconds s).flowerScale) := by
  obtain ⟨ht, _, ⟨hf0, hf1⟩, _, _, h2, _, h3⟩ := scalesInvariant_of_reachable s hr
  have htq : (0 : ℚ) ≤ (s.phaseTimer : ℚ) := by exact_mod_cast ht
  constructor
  · intro hp
    have hg := h2 hp
    simp only [update, advanceSun_treeGrowthScale, updatePhase, hp, updateGrowth]
    norm_num
    split
    · show s.treeGrowthScale ≤ 3 / 20 + ((s.phaseTimer : ℚ) + 2) / 100 * (17 / 20)
      norm_num at hg
      linarith
    · exact le_refl _
  · intro hp
    have hfl := h3 hp
    simp only [update, advanceSun_flowerScale, updatePhase, hp, updateFlowering]
    norm_num
    split
    · show s.flowerScale ≤ ((s.phaseTimer : ℚ) + 2) / 25
      norm_num at hfl
      linarith
    · exact le_refl _

/-- Witness for C5: the state 50 ticks after construction is the first one in
the Growth phase, the state 100 ticks after it the first one in Flowering. -/
theorem scales_nondecreasing_within_phase_witness :
    (Reachable (run (frames 50) new) ∧
        (run (frames 50) new).animationPhase = 2 ∧
        (run (frames 50) new).treeGrowthScale ≤
          (update (33 / 1000) (run (frames 50) new)).treeGrowthScale) ∧
      (Reachable (run (frames 100) new) ∧
        (run (frames 100) new).animationPhase = 3 ∧
        (run (frames 100) new).flowerScale ≤
          (update (33 / 1000) (run (frames 100) new)).flowerScale) :=
  ⟨⟨reachable_run _ _ Reachable.constructed, by decide!,
      (scales_nondecreasing_within_phase _ (reachable_run _ _ Reachable.constructed)
        (33 / 1000)).1 (by decide!)⟩,
    ⟨reachable_run _ _ Reachable.constructed, by decide!,
      (scales_nondecreasing_within_phase _ (reachable_run _ _ Reachable.constructed)
        (33 / 1000)).2 (by decide!)⟩⟩

/-- C6: in every state reachable from the constructed one by `update()` and
`resetAnimation()` calls (and render passes), `0 <= treeGrowthScale <= 1` and
`0 <= flowerScale <= 1`. -/
theorem scales_within_unit_interval (s : AnimatedTreeDrawer) (hr : Reachable s) :
    (0 ≤ s.treeGrowthScale ∧ s.treeGrowthScale ≤ 1) ∧
      (0 ≤ s.flowerScale ∧ s.flowerScale ≤ 1) := by
  obtain ⟨_, hg, hf, _⟩ := scalesInvariant_of_reachable s hr
  exact ⟨hg, hf⟩

/-- Witness for C6: the state 170 ticks after construction, then reset. -/
theorem scales_within_unit_interval_witness :
    Reachable (resetAnimation (run (frames 170) new)) ∧
      (0 ≤ (resetAnimation (run (frames 170) new)).treeGrowthScale ∧
        (resetAnimation (run (frames 170) new)).treeGrowthScale ≤ 1) ∧
      (0 ≤ (resetAnimation (run (frames 170) new)).flowerScale ∧
        (resetAnimation (run (frames 170) new)).flowerScale ≤ 1) :=
  ⟨Reachable.resetAnimation (reachable_run _ _ Reachable.constructed),
    scales_within_unit_interval _
      (Reachable.resetAnimation (reachable_run _ _ Reachable.constructed))⟩

/-! ## Camera zoom -/

/-- C7 at its failing input: 141 `update()` calls from the constructed state
(no anchor recorded, so the seed starts at the fallback (500, 330)) reach a
Dispersal state with `phaseTimer = 56` whose seed is still airborne and whose
`zoomScale` is `1 + (56 / 55) * 7 = 447 / 55`, above 8. -/
theorem dispersal_zoom_exceeds_eight :
    Reachable (run (frames 141) new) ∧
      (run (frames 141) new).animationPhase = 4 ∧
      (run (frames 141) new).phaseTimer = 56 ∧
      ((run (frames 141) new).fallingSeeds.map fun seed => seed.active) = [true] ∧
      (run (frames 141) new).zoomScale = 447 / 55 ∧
      8 < (run (frames 141) new).zoomScale := by
  refine ⟨reachable_run _ _ Reachable.constructed, ?_, ?_, ?_, ?_, ?_⟩
  · decide!
  · decide!
  · decide!
  · decide!
  · decide!

/-! ## Seed physics -/

/-- The seed an iteration of the loop leaves does not depend on the landed
position it was handed. -/
theorem updateSeed_fst (groundLevel : Int) (seed : Seed) (landed landed2 : Int × Int) :
    (updateSeed groundLevel seed landed).1 = (updateSeed groundLevel seed landed2).1 := by
  simp only [updateSeed]
  split
  · rfl
  · split <;> rfl

/-- The loop of `updateFallingSeeds()` treats the seeds one by one. -/
theorem updateSeeds_fst (groundLevel : Int) (seeds : List Seed) :
    ∀ landed : Int × Int,
      (updateSeeds groundLevel seeds landed).1 =
        seeds.map fun seed => (updateSeed groundLevel seed (0, 0)).1 := by
  induction seeds with
  | nil => intro landed; rfl
  | cons seed rest ih =>
    intro landed
    simp only [updateSeeds, List.map_cons]
    rw [ih, updateSeed_fst groundLevel seed landed (0, 0)]

/-- C8: `updateFallingSeeds()` keeps the number and order of the seeds; a seed
that was active gets `velocityY + 0.3` as its new `velocityY`, strictly more
than before, whether or not the call deactivates it, and its `y` advances by
that new velocity; a seed that was inactive is left unchanged. -/
theorem updateFallingSeeds_gravity (s : AnimatedTreeDrawer) (i : Nat) (seed : Seed)
    (hseed : s.fallingSeeds[i]? = some seed) :
    (updateFallingSeeds s).fallingSeeds.length = s.fallingSeeds.length ∧
      (seed.active = true →
        ∃ seed2 : Seed,
          (updateFallingSeeds s).fallingSeeds[i]? = some seed2 ∧
            seed2.velocityY = seed.velocityY + 0.3 ∧ seed.velocityY < seed2.velocityY ∧
            seed2.y = seed.y + seed2.velocityY) ∧
      (seed.active = false → (updateFallingSeeds s).fallingSeeds[i]? = some seed) := by
  have hlist : (updateFallingSeeds s).fallingSeeds =
      s.fallingSeeds.map fun seed => (updateSeed s.groundLevel seed (0, 0)).1 :=
    updateSeeds_fst s.groundLevel s.fallingSeeds (s.seedX, s.seedY)
  rw [hlist]
  refine ⟨by simp, ?_, ?_⟩
  · intro hact
    refine ⟨(updateSeed s.groundLevel seed (0, 0)).1, by simp [List.getElem?_map, hseed], ?_⟩
    unfold updateSeed
    simp only [hact, Bool.not_true, Bool.false_eq_true, if_false]
    split <;> norm_num
  · intro hina
    simp [List.getElem?_map, hseed, updateSeed, hina]

/-- Witness for C8: the airborne seed one tick into Dispersal, and the landed
seed of a state late in the Reset phase. -/
theorem updateFallingSeeds_gravity_witness :
    ((run (frames 114) new).fallingSeeds[0]? =
          some { x := 501.5, y := 330.3, angle := 0.2, velocityY := 0.3, active := true } ∧
        ∃ seed2 : Seed,
          (updateFallingSeeds (run (frames 114) new)).fallingSeeds[0]? = some seed2 ∧
            seed2.velocityY = (0.3 : ℚ) + 0.3 ∧ (0.3 : ℚ) < seed2.velocityY ∧
            seed2.y = (330.3 : ℚ) + seed2.velocityY) ∧
      (resetExpiring.fallingSeeds[0]? =
          some { x := 558.5, y := 564, angle := 7.8, velocityY := 11.7, active := false } ∧
        (updateFallingSeeds resetExpiring).fallingSeeds[0]? =
          some { x := 558.5, y := 564, angle := 7.8, velocityY := 11.7, active := false }) :=
  ⟨⟨by decide!,
      (updateFallingSeeds_gravity (run (frames 114) new) 0
        { x := 501.5, y := 330.3, angle := 0.2, velocityY := 0.3, active := true }
        (by decide!)).2.1 rfl⟩,
    ⟨rfl,
      (updateFallingSeeds_gravity resetExpiring 0
        { x := 558.5, y := 564, angle := 7.8, velocityY := 11.7, active := false } rfl).2.2 rfl⟩⟩

/-! ## Branch generator -/

/-- With `growthProgress = 0` and `depth <= 8` the local `branchProgress` is 0. -/
theorem branchProgress_zero_growth (depth : Int) (hd : depth ≤ 8) :
    branchProgress 0 depth = 0 := by
  have hq : (0 : ℚ) ≤ ((8 - depth : Int) : ℚ) := by exact_mod_cast (by omega : (0 : Int) ≤ 8 - depth)
  have hq2 : (depth : ℚ) - 8 ≤ 0 := by push_cast at hq; linarith
  unfold branchProgress
  norm_num
  rw [max_eq_left hq2]
  norm_num

/-- With `growthProgress = 1` and `depth >= 1` the local `branchProgress` is 1. -/
theorem branchProgress_full_growth (depth : Int) (hd : 1 ≤ depth) :
    branchProgress 1 depth = 1 := by
  have hq : (1 : ℚ) ≤ (depth : ℚ) := by exact_mod_cast hd
  unfold branchProgress
  push_cast
  norm_num
  linarith

/-- The recursive equation of the source: `drawBranch` returns at once when
`depth <= 0`, `scale <= 0.1` or `branchProgress <= 0`; otherwise it draws its
node and calls itself three times with `depth - 1`. -/
theorem drawBranch_eq (trig : Trig) (rand : Nat → Int) (x1 y1 : Int) (length angle : ℚ)
    (depth : Int) (scale growthProgress : ℚ) (p : Pass) :
    drawBranch trig rand x1 y1 length angle depth scale growthProgress p =
      if depth ≤ 0 ∨ scale ≤ 0.1 then p
      else
        if branchProgress growthProgress depth ≤ 0 then p
        else
          drawBranch trig rand
            (x1 + toInt (length * scale * branchProgress growthProgress depth * trig.cos angle))
            (y1 - toInt (length * scale * branchProgress growthProgress depth * trig.sin angle))
            (length * 0.7 * 0.8) angle (depth - 1) scale growthProgress
            (drawBranch trig rand
              (x1 + toInt (length * scale * branchProgress growthProgress depth * trig.cos angle))
              (y1 - toInt (length * scale * branchProgress growthProgress depth * trig.sin angle))
              (length * 0.7) (angle + 0.3) (depth - 1) scale growthProgress
              (drawBranch trig rand
                (x1 + toInt (length * scale * branchProgress growthProgress depth * trig.cos angle))
                (y1 - toInt (length * scale * branchProgress growthProgress depth * trig.sin angle))
                (length * 0.7) (angle - 0.3) (depth - 1) scale growthProgress
                (drawNode trig rand x1 y1
                  (x1 + toInt (length * scale * branchProgress growthProgress depth * trig.cos angle))
                  (y1 - toInt (length * scale * branchProgress growthProgress depth * trig.sin angle))
                  depth scale (branchProgress growthProgress depth) p))) := by
  unfold drawBranch
  rcases hfuel : depth.toNat with _ | fuel
  · have hd : depth ≤ 0 := by omega
    simp [drawBranchFuel, hd]
  · have hd : (depth - 1).toNat = fuel := by omega
    rw [hd]
    simp only [drawBranchFuel]

theorem trackRightmost_drawn (depth x2 y2 : Int) (p : Pass) :
    (trackRightmost depth x2 y2 p).drawn = p.drawn := by
  unfold trackRightmost
  split <;> rfl

/-- C9, as stated, fails for a starting depth above 8: with `growthProgress = 0`,
`depth = 9` and `scale = 1` the root has `branchProgress = min(1, max(0, 0 - (8 - 9))) = 1`
and draws one segment (its three children, of depth 8, return at once). -/
theorem drawBranch_zero_growth_depth_nine :
    branchProgress 0 9 = 1 ∧
      (drawBranch trigAtZero (fun _ => 0) 400 480 150 0 9 1 0 emptyPass).segments = 1 := by
  have hbp : branchProgress 0 9 = 1 := by norm_num [branchProgress]
  have hbp8 : branchProgress 0 8 = 0 := by norm_num [branchProgress]
  refine ⟨hbp, ?_⟩
  have hchild : ∀ (x y : Int) (len ang : ℚ) (q : Pass),
      drawBranch trigAtZero (fun _ => 0) x y len ang 8 1 0 q = q := by
    intro x y len ang q
    rw [drawBranch_eq]
    simp [hbp8]
  rw [drawBranch_eq]
  have hcond : ¬ ((9 : Int) ≤ 0 ∨ (1 : ℚ) ≤ 0.1) := by norm_num
  have h91 : (9 : Int) - 1 = 8 := by norm_num
  simp only [if_neg hcond, hbp, h91, hchild]
  norm_num [drawNode, decorateFlower, decorateLeaves, drawSegment, trackRightmost_drawn,
    Pass.segments, emptyPass, Primitive.isSegment]

/-- C9, amended: for every origin, trunk length, initial angle and scale and
every starting depth of at most 8 (the depth `render()` passes), `drawBranch`
with `growthProgress = 0` returns before drawing, recursing, appending a flower
position or touching the rightmost anchor: the pass is left as it was. -/
theorem drawBranch_zero_growth (trig : Trig) (rand : Nat → Int) (x1 y1 : Int)
    (length angle : ℚ) (depth : Int) (scale : ℚ) (p : Pass) (hd : depth ≤ 8) :
    drawBranch trig rand x1 y1 length angle depth scale 0 p = p := by
  rw [drawBranch_eq]
  split
  · rfl
  · rw [branchProgress_zero_growth depth hd]
    simp

/-- Witness for C9 (amended): the call `render()` would make with a growth of 0. -/
theorem drawBranch_zero_growth_witness :
    (8 : Int) ≤ 8 ∧
      drawBranch trigAtZero (fun _ => 0) 400 480 150 (3.14159 / 2) 8 1 0 emptyPass = emptyPass :=
  ⟨by decide,
    drawBranch_zero_growth trigAtZero (fun _ => 0) 400 480 150 (3.14159 / 2) 8 1 emptyPass
      (by decide)⟩

/-- The leaf loop draws leaves only. -/
theorem drawLeaves_countP (f : Primitive → Bool) (hleaf : ∀ x y size, f (.leaf x y size) = false)
    (rand : Nat → Int) (x2 y2 : Int) (scale : ℚ) (n : Nat) :
    ∀ p : Pass, (drawLeaves rand x2 y2 scale n p).drawn.countP f = p.drawn.countP f := by
  induction n with
  | zero => intro p; rfl
  | succ n ih =>
    intro p
    simp only [drawLeaves]
    rw [ih]
    simp [List.countP_append, hleaf]

/-- The petal loop draws petals only. -/
theorem drawPetals_countP (f : Primitive → Bool) (hpetal : ∀ x y size, f (.petal x y size) = false)
    (trig : Trig) (x y petalSize : Int) (n : Nat) :
    ∀ i : Nat, (drawPetals trig x y petalSize i n).countP f = 0 := by
  induction n with
  | zero => intro i; rfl
  | succ n ih =>
    intro i
    simp only [drawPetals]
    rw [List.countP_cons, ih]
    simp [hpetal]

/-- A flower adds no primitive counted by `f` when `f` rejects petals and
flower centres. -/
theorem drawFlower_countP (f : Primitive → Bool)
    (hpetal : ∀ x y size, f (.petal x y size) = false)
    (hcentre : ∀ x y size, f (.flowerCentre x y size) = false)
    (trig : Trig) (x y : Int) (scale : ℚ) (p : Pass) :
    (drawFlower trig x y scale p).drawn.countP f = p.drawn.countP f := by
  unfold drawFlower
  split
  · rfl
  · simp [List.countP_append, drawPetals_countP f hpetal, hcentre]

/-- A node draws exactly one segment, and besides it only leaves and flower
parts. -/
theorem drawNode_countP (f : Primitive → Bool) (g : Int → Bool)
    (hseg : ∀ x1 y1 x2 y2 d t, f (.segment x1 y1 x2 y2 d t) = g d)
    (hleaf : ∀ x y size, f (.leaf x y size) = false)
    (hpetal : ∀ x y size, f (.petal x y size) = false)
    (hcentre : ∀ x y size, f (.flowerCentre x y size) = false)
    (trig : Trig) (rand : Nat → Int) (x1 y1 x2 y2 : Int) (depth : Int)
    (scale bp : ℚ) (p : Pass) :
    (drawNode trig rand x1 y1 x2 y2 depth scale bp p).drawn.countP f =
      p.drawn.countP f + (if g depth then 1 else 0) := by
  have hflower : ∀ q : Pass,
      (decorateFlower trig x2 y2 depth scale bp q).drawn.countP f = q.drawn.countP f := by
    intro q
    unfold decorateFlower
    split
    · exact drawFlower_countP f hpetal hcentre trig x2 y2 _ q
    · rfl
  have hleaves : ∀ q : Pass,
      (decorateLeaves rand x2 y2 depth scale bp q).drawn.countP f = q.drawn.countP f := by
    intro q
    unfold decorateLeaves
    split
    · exact drawLeaves_countP f hleaf rand x2 y2 scale _ q
    · rfl
  unfold drawNode
  rw [hflower, hleaves]
  simp [drawSegment, List.countP_append, List.countP_singleton, hseg, trackRightmost_drawn]

/-- With `growthProgress = 1` and `scale > 0.1` a call of depth `n` draws a full
three-way fan: one segment per node at every depth from `n` down to 1. -/
theorem drawBranch_full_growth_countP (f : Primitive → Bool) (g : Int → Bool)
    (hseg : ∀ x1 y1 x2 y2 d t, f (.segment x1 y1 x2 y2 d t) = g d)
    (hleaf : ∀ x y size, f (.leaf x y size) = false)
    (hpetal : ∀ x y size, f (.petal x y size) = false)
    (hcentre : ∀ x y size, f (.flowerCentre x y size) = false)
    (trig : Trig) (rand : Nat → Int) (scale : ℚ) (hs : 0.1 < scale) (n : Nat) :
    ∀ (x1 y1 : Int) (length angle : ℚ) (p : Pass),
      (drawBranch trig rand x1 y1 length angle (n : Int) scale 1 p).drawn.countP f =
        p.drawn.countP f + fanCount g n := by
  induction n with
  | zero =>
    intro x1 y1 length angle p
    rw [drawBranch_eq]
    simp [fanCount]
  | succ n ih =>
    intro x1 y1 length angle p
    have hcond : ¬ (((n + 1 : Nat) : Int) ≤ 0 ∨ scale ≤ 0.1) := by
      push_cast
      rintro (h | h)
      · omega
      · exact absurd hs (not_lt.mpr h)
    have hbp : branchProgress 1 ((n + 1 : Nat) : Int) = 1 :=
      branchProgress_full_growth _ (by push_cast; omega)
    have hdepth : ((n + 1 : Nat) : Int) - 1 = (n : Int) := by push_cast; ring
    rw [drawBranch_eq, if_neg hcond, hbp, if_neg (by norm_num), hdepth, ih, ih, ih,
      drawNode_countP f g hseg hleaf hpetal hcentre]
    simp only [fanCount]
    ring

/-- C10: for every origin, trunk length and angle and every `scale > 0.1`,
`drawBranch` with `growthProgress = 1` and `depth = 8` (a total function
satisfying the recursive equation `drawBranch_eq`) has `branchProgress = 1` at
every depth from 8 down to 1 and draws exactly `3 ^ (8 - d)` segments at each
such depth `d` (one per node, three children per node): 3280 segments in all,
2187 of them depth-1 tips. -/
theorem drawBranch_full_growth_depth_eight (trig : Trig) (rand : Nat → Int) (x1 y1 : Int)
    (length angle scale : ℚ) (p : Pass) (hs : 0.1 < scale) :
    (drawBranch trig rand x1 y1 length angle 8 scale 1 p).segments = p.segments + 3280 ∧
      (drawBranch trig rand x1 y1 length angle 8 scale 1 p).segmentsAt 1 =
        p.segmentsAt 1 + 2187 ∧
      ∀ d : Int, 1 ≤ d → d ≤ 8 →
        branchProgress 1 d = 1 ∧
          (drawBranch trig rand x1 y1 length angle 8 scale 1 p).segmentsAt d =
            p.segmentsAt d + 3 ^ (8 - d).toNat := by
  have hat : ∀ d : Int,
      (drawBranch trig rand x1 y1 length angle 8 scale 1 p).segmentsAt d =
        p.segmentsAt d + fanCount (fun k => decide (k = d)) 8 := by
    intro d
    exact drawBranch_full_growth_countP (Primitive.isSegmentAt d) (fun k => decide (k = d))
      (fun _ _ _ _ _ _ => rfl) (fun _ _ _ => rfl) (fun _ _ _ => rfl) (fun _ _ _ => rfl)
      trig rand scale hs 8 x1 y1 length angle p
  refine ⟨?_, ?_, ?_⟩
  · exact drawBranch_full_growth_countP Primitive.isSegment (fun _ => true)
      (fun _ _ _ _ _ _ => rfl) (fun _ _ _ => rfl) (fun _ _ _ => rfl) (fun _ _ _ => rfl)
      trig rand scale hs 8 x1 y1 length angle p
  · rw [hat 1]
    rfl
  · intro d h1 h8
    refine ⟨branchProgress_full_growth d h1, ?_⟩
    rw [hat d]
    interval_cases d <;> rfl

/-- Witness for C10: the call `render()` makes late in the Growth phase. -/
theorem drawBranch_full_growth_depth_eight_witness :
    (0.1 : ℚ) < 0.983 ∧
      (drawBranch trigAtZero (fun _ => 0) 400 480 150 (3.14159 / 2) 8 0.983 1 emptyPass).segments =
        emptyPass.segments + 3280 ∧
      (drawBranch trigAtZero (fun _ => 0) 400 480 150 (3.14159 / 2) 8 0.983 1 emptyPass).segmentsAt 1 =
        emptyPass.segmentsAt 1 + 2187 ∧
      branchProgress 1 3 = 1 ∧
      (drawBranch trigAtZero (fun _ => 0) 400 480 150 (3.14159 / 2) 8 0.983 1 emptyPass).segmentsAt 3 =
        emptyPass.segmentsAt 3 + 3 ^ ((8 : Int) - 3).toNat :=
  ⟨by norm_num,
    (drawBranch_full_growth_depth_eight trigAtZero (fun _ => 0) 400 480 150 (3.14159 / 2) 0.983
      emptyPass (by norm_num)).1,
    (drawBranch_full_growth_depth_eight trigAtZero (fun _ => 0) 400 480 150 (3.14159 / 2) 0.983
      emptyPass (by norm_num)).2.1,
    (drawBranch_full_growth_depth_eight trigAtZero (fun _ => 0) 400 480 150 (3.14159 / 2) 0.983
      emptyPass (by norm_num)).2.2 3 (by decide) (by decide)⟩

/-! ## Render pass: the accumulators -/

theorem clearSky_withEarlier (trig : Trig) (x0 y0 : Int) (f0 : List Point) (b : Pass) :
    clearSky trig (withEarlier x0 y0 f0 b) = withEarlier x0 y0 f0 (clearSky trig b) := rfl

theorem drawSun_withEarlier (trig : Trig) (x0 y0 : Int) (f0 : List Point) (b : Pass) :
    drawSun trig (withEarlier x0 y0 f0 b) = withEarlier x0 y0 f0 (drawSun trig b) := rfl

theorem drawClouds_withEarlier (x0 y0 : Int) (f0 : List Point) (b : Pass) :
    drawClouds (withEarlier x0 y0 f0 b) = withEarlier x0 y0 f0 (drawClouds b) := rfl

theorem renderSoil_withEarlier (x0 y0 : Int) (f0 : List Point) (b : Pass) :
    renderSoil (withEarlier x0 y0 f0 b) = withEarlier x0 y0 f0 (renderSoil b) := rfl

theorem drawSeed_withEarlier (x y : Int) (angle scale : ℚ) (x0 y0 : Int) (f0 : List Point)
    (b : Pass) :
    drawSeed x y angle scale (withEarlier x0 y0 f0 b) =
      withEarlier x0 y0 f0 (drawSeed x y angle scale b) := rfl

theorem renderSeed_withEarlier (x0 y0 : Int) (f0 : List Point) (b : Pass) :
    renderSeed (withEarlier x0 y0 f0 b) = withEarlier x0 y0 f0 (renderSeed b) := by
  unfold renderSeed
  simp only [apply_ite (withEarlier x0 y0 f0)]
  rfl

theorem renderSeedling_withEarlier (x0 y0 : Int) (f0 : List Point) (b : Pass) :
    renderSeedling (withEarlier x0 y0 f0 b) = withEarlier x0 y0 f0 (renderSeedling b) := by
  unfold renderSeedling
  simp only [apply_ite (withEarlier x0 y0 f0)]
  rfl

theorem drawFallingSeeds_withEarlier (seeds : List Seed) (x0 y0 : Int) (f0 : List Point) :
    ∀ b : Pass,
      drawFallingSeeds seeds (withEarlier x0 y0 f0 b) =
        withEarlier x0 y0 f0 (drawFallingSeeds seeds b) := by
  induction seeds with
  | nil => intro b; rfl
  | cons seed rest ih =>
    intro b
    simp only [drawFallingSeeds]
    split
    · exact ih (drawSeed (b.drawer.screenWidth.tdiv 2) (b.drawer.screenHeight.tdiv 2)
        seed.angle (b.drawer.zoomScale * 2.0) b)
    · exact ih b

theorem displayPhaseInfo_withEarlier (x0 y0 : Int) (f0 : List Point) (b : Pass) :
    displayPhaseInfo (withEarlier x0 y0 f0 b) = withEarlier x0 y0 f0 (displayPhaseInfo b) := rfl

theorem drawSegment_withEarlier (x1 y1 x2 y2 depth : Int) (scale : ℚ) (x0 y0 : Int)
    (f0 : List Point) (b : Pass) :
    drawSegment x1 y1 x2 y2 depth scale (withEarlier x0 y0 f0 b) =
      withEarlier x0 y0 f0 (drawSegment x1 y1 x2 y2 depth scale b) := rfl

theorem drawLeaves_withEarlier (rand : Nat → Int) (x2 y2 : Int) (scale : ℚ) (n : Nat)
    (x0 y0 : Int) (f0 : List Point) :
    ∀ b : Pass,
      drawLeaves rand x2 y2 scale n (withEarlier x0 y0 f0 b) =
        withEarlier x0 y0 f0 (drawLeaves rand x2 y2 scale n b) := by
  induction n with
  | zero => intro b; rfl
  | succ n ih =>
    intro b
    simp only [drawLeaves]
    exact ih { b with
      drawn := b.drawn ++ [Primitive.leaf (x2 + ((rand b.randCalls).tmod 10 - 5))
        (y2 + ((rand (b.randCalls + 1)).tmod 10 - 5)) (toInt (4 * scale))]
      randCalls := b.randCalls + 2 }

theorem decorateLeaves_withEarlier (rand : Nat → Int) (x2 y2 depth : Int) (scale bp : ℚ)
    (x0 y0 : Int) (f0 : List Point) (b : Pass) :
    decorateLeaves rand x2 y2 depth scale bp (withEarlier x0 y0 f0 b) =
      withEarlier x0 y0 f0 (decorateLeaves rand x2 y2 depth scale bp b) := by
  unfold decorateLeaves
  split
  · exact drawLeaves_withEarlier rand x2 y2 scale _ x0 y0 f0 b
  · rfl

/-- The rightmost-anchor update keeps the running maximum: it commutes with
putting an earlier anchor under the pass. -/
theorem trackRightmost_withEarlier (depth x2 y2 : Int) (x0 y0 : Int) (f0 : List Point)
    (b : Pass) :
    trackRightmost depth x2 y2 (withEarlier x0 y0 f0 b) =
      withEarlier x0 y0 f0 (trackRightmost depth x2 y2 b) := by
  unfold trackRightmost
  by_cases hd : depth = 1
  · by_cases h1 : x2 > b.drawer.rightmostBranchX
    · by_cases h2 : b.drawer.rightmostBranchX > x0
      · have h3 : x2 > x0 := by omega
        simp [withEarlier, hd, h1, h2, h3]
      · by_cases h3 : x2 > x0
        · simp [withEarlier, hd, h1, h2, h3]
        · simp [withEarlier, hd, h1, h2, h3]
    · by_cases h2 : b.drawer.rightmostBranchX > x0
      · simp [withEarlier, hd, h1, h2]
      · have h3 : ¬ (x2 > x0) := by omega
        simp [withEarlier, hd, h1, h2, h3]
  · simp [withEarlier, hd]

/-- A flower appended during the pass comes after the earlier positions. -/
theorem drawFlower_withEarlier (trig : Trig) (x y : Int) (scale : ℚ) (x0 y0 : Int)
    (f0 : List Point) (b : Pass) :
    drawFlower trig x y scale (withEarlier x0 y0 f0 b) =
      withEarlier x0 y0 f0 (drawFlower trig x y scale b) := by
  unfold drawFlower
  split
  · rfl
  · simp only [withEarlier, List.append_assoc]

theorem decorateFlower_withEarlier (trig : Trig) (x2 y2 depth : Int) (scale bp : ℚ)
    (x0 y0 : Int) (f0 : List Point) (b : Pass) :
    decorateFlower trig x2 y2 depth scale bp (withEarlier x0 y0 f0 b) =
      withEarlier x0 y0 f0 (decorateFlower trig x2 y2 depth scale bp b) := by
  unfold decorateFlower
  by_cases h : depth = 1 ∧ b.drawer.showFlowers = true ∧ scale > 0.8 ∧ bp > 0.9
  · have h2 : depth = 1 ∧ (withEarlier x0 y0 f0 b).drawer.showFlowers = true ∧ scale > 0.8 ∧
        bp > 0.9 := h
    rw [if_pos h, if_pos h2]
    exact drawFlower_withEarlier trig x2 y2 b.drawer.flowerScale x0 y0 f0 b
  · have h2 : ¬ (depth = 1 ∧ (withEarlier x0 y0 f0 b).drawer.showFlowers = true ∧ scale > 0.8 ∧
        bp > 0.9) := h
    rw [if_neg h, if_neg h2]

theorem drawNode_withEarlier (trig : Trig) (rand : Nat → Int) (x1 y1 x2 y2 depth : Int)
    (scale bp : ℚ) (x0 y0 : Int) (f0 : List Point) (b : Pass) :
    drawNode trig rand x1 y1 x2 y2 depth scale bp (withEarlier x0 y0 f0 b) =
      withEarlier x0 y0 f0 (drawNode trig rand x1 y1 x2 y2 depth scale bp b) := by
  unfold drawNode
  rw [trackRightmost_withEarlier, drawSegment_withEarlier, decorateLeaves_withEarlier,
    decorateFlower_withEarlier]

theorem drawBranchFuel_withEarlier (trig : Trig) (rand : Nat → Int) (scale growthProgress : ℚ)
    (x0 y0 : Int) (f0 : List Point) (fuel : Nat) :
    ∀ (x1 y1 : Int) (length angle : ℚ) (depth : Int) (b : Pass),
      drawBranchFuel trig rand scale growthProgress fuel x1 y1 length angle depth
          (withEarlier x0 y0 f0 b) =
        withEarlier x0 y0 f0
          (drawBranchFuel trig rand scale growthProgress fuel x1 y1 length angle depth b) := by
  induction fuel with
  | zero => intro x1 y1 length angle depth b; rfl
  | succ fuel ih =>
    intro x1 y1 length angle depth b
    simp only [drawBranchFuel]
    split
    · rfl
    · split
      · rfl
      · rw [drawNode_withEarlier, ih, ih, ih]

/-- A generation pass run on top of earlier accumulator contents leaves what the
same pass leaves from any other contents, with the earlier ones put under it. -/
theorem drawBranch_withEarlier (trig : Trig) (rand : Nat → Int) (x1 y1 : Int)
    (length angle : ℚ) (depth : Int) (scale growthProgress : ℚ) (x0 y0 : Int)
    (f0 : List Point) (b : Pass) :
    drawBranch trig rand x1 y1 length angle depth scale growthProgress (withEarlier x0 y0 f0 b) =
      withEarlier x0 y0 f0
        (drawBranch trig rand x1 y1 length angle depth scale growthProgress b) :=
  drawBranchFuel_withEarlier trig rand scale growthProgress x0 y0 f0 depth.toNat
    x1 y1 length angle depth b

theorem renderTree_withEarlier (trig : Trig) (rand : Nat → Int) (x0 y0 : Int)
    (f0 : List Point) (b : Pass) :
    renderTree trig rand (withEarlier x0 y0 f0 b) =
      withEarlier x0 y0 f0 (renderTree trig rand b) := by
  unfold renderTree
  simp only [apply_ite (withEarlier x0 y0 f0), ← drawBranch_withEarlier]
  rfl

theorem render_withEarlier (trig : Trig) (rand : Nat → Int) (x0 y0 : Int) (f0 : List Point)
    (b : Pass) :
    render trig rand (withEarlier x0 y0 f0 b) = withEarlier x0 y0 f0 (render trig rand b) := by
  unfold render
  simp only [clearSky_withEarlier, drawSun_withEarlier, drawClouds_withEarlier,
    renderSoil_withEarlier, renderSeed_withEarlier, renderSeedling_withEarlier,
    renderTree_withEarlier]
  have hseeds : ∀ q : Pass, (withEarlier x0 y0 f0 q).drawer.fallingSeeds = q.drawer.fallingSeeds :=
    fun _ => rfl
  rw [hseeds, drawFallingSeeds_withEarlier, displayPhaseInfo_withEarlier]

/-- A pass whose anchor is not left of 0 is its cleared version with its own
accumulator contents put under it. -/
theorem withEarlier_clearAccumulators (p : Pass) (hx : 0 ≤ p.drawer.rightmostBranchX) :
    withEarlier p.drawer.rightmostBranchX p.drawer.rightmostBranchY p.drawer.flowerPositions
      (clearAccumulators p) = p := by
  have h : ¬ (0 > p.drawer.rightmostBranchX) := by omega
  simp [withEarlier, clearAccumulators, h]

/-- C11, as stated, fails: `render()` clears neither accumulator.  On a state
late in the Reset phase (growth scale 0.04, so `drawBranch` returns at once and
the pass draws no segment, emits no flower and generates no tip) whose
accumulators hold the flower position and anchor (520, 210) of earlier frames,
both are still there after the pass, whereas the same pass started from cleared
accumulators leaves the empty list and the anchor (0, 0). -/
theorem render_keeps_earlier_accumulators :
    (render trigAtZero (fun _ => 0) lateResetPass).segments = 0 ∧
      (render trigAtZero (fun _ => 0) lateResetPass).drawer.flowerPositions =
        [{ x := 520, y := 210 }] ∧
      (render trigAtZero (fun _ => 0) lateResetPass).drawer.rightmostBranchX = 520 ∧
      (render trigAtZero (fun _ => 0) lateResetPass).drawer.rightmostBranchY = 210 ∧
      (render trigAtZero (fun _ => 0) (clearAccumulators lateResetPass)).drawer.flowerPositions =
        [] ∧
      (render trigAtZero (fun _ => 0) (clearAccumulators lateResetPass)).drawer.rightmostBranchX =
        0 ∧
      (render trigAtZero (fun _ => 0) (clearAccumulators lateResetPass)).drawer.rightmostBranchY =
        0 := by
  refine ⟨?_, ?_, ?_, ?_, ?_, ?_, ?_⟩ <;> decide!

/-- Independence of the earlier contents.  From a state whose
`rightmostBranchX` is not negative, a pass leaves the earlier flower positions
followed by those the same pass leaves from cleared accumulators, and the anchor
the same pass leaves from cleared accumulators when that lies strictly to the
right of the earlier `rightmostBranchX`, the earlier anchor otherwise; what is
drawn is the same from both. -/
theorem render_over_earlier_contents (trig : Trig) (rand : Nat → Int) (p : Pass)
    (hx : 0 ≤ p.drawer.rightmostBranchX) :
    (render trig rand p).drawer.flowerPositions =
        p.drawer.flowerPositions ++
          (render trig rand (clearAccumulators p)).drawer.flowerPositions ∧
      (render trig rand p).drawer.rightmostBranchX =
        (if (render trig rand (clearAccumulators p)).drawer.rightmostBranchX >
            p.drawer.rightmostBranchX
          then (render trig rand (clearAccumulators p)).drawer.rightmostBranchX
          else p.drawer.rightmostBranchX) ∧
      (render trig rand p).drawer.rightmostBranchY =
        (if (render trig rand (clearAccumulators p)).drawer.rightmostBranchX >
            p.drawer.rightmostBranchX
          then (render trig rand (clearAccumulators p)).drawer.rightmostBranchY
          else p.drawer.rightmostBranchY) ∧
      p.drawer.rightmostBranchX ≤ (render trig rand p).drawer.rightmostBranchX ∧
      0 ≤ (render trig rand p).drawer.rightmostBranchX ∧
      (render trig rand p).drawn = (render trig rand (clearAccumulators p)).drawn := by
  have h := render_withEarlier trig rand p.drawer.rightmostBranchX p.drawer.rightmostBranchY
    p.drawer.flowerPositions (clearAccumulators p)
  rw [withEarlier_clearAccumulators p hx] at h
  have hX : (render trig rand p).drawer.rightmostBranchX =
      (if (render trig rand (clearAccumulators p)).drawer.rightmostBranchX >
          p.drawer.rightmostBranchX
        then (render trig rand (clearAccumulators p)).drawer.rightmostBranchX
        else p.drawer.rightmostBranchX) := by
    rw [h]
    rfl
  refine ⟨by rw [h]; rfl, hX, by rw [h]; rfl, ?_, ?_, by rw [h]; rfl⟩
  · rw [hX]
    split <;> omega
  · rw [hX]
    split <;> omega

/-! ## Camera transform during Dispersal -/

/-- C12 at its failing inputs.  On the first Dispersal tick (114 `update()`
calls after construction) the seed is airborne at (501.5, 330.3) and `update()`
has set `zoomScale = 69/55`, `cameraOffsetX = -229`, `cameraOffsetY = -114`; the
transform law of `render()` maps the seed to (5281/22, 107247/550), about
(240, 195), more than `zoomScale` pixels from the centre (400, 300).  On the
tick the seed lands (152 calls) the zoom is held at 8 with
`cameraOffsetX = -4064`, `cameraOffsetY = -3740`, and the law maps the landed
seed (seedX, seedY) = (558, 505) to (-30848, -27980). -/
theorem dispersal_camera_off_centre :
    ((run (frames 114) new).animationPhase = 4 ∧
        (run (frames 114) new).phaseTimer = 2 ∧
        (run (frames 114) new).fallingSeeds =
          [{ x := 501.5, y := 330.3, angle := 0.2, velocityY := 0.3, active := true }] ∧
        (run (frames 114) new).zoomScale = 69 / 55 ∧
        (run (frames 114) new).cameraOffsetX = -229 ∧
        (run (frames 114) new).cameraOffsetY = -114 ∧
        screenX (run (frames 114) new) 501.5 = 5281 / 22 ∧
        screenY (run (frames 114) new) 330.3 = 107247 / 550 ∧
        screenX (run (frames 114) new) 501.5 + (run (frames 114) new).zoomScale < 400 ∧
        screenY (run (frames 114) new) 330.3 + (run (frames 114) new).zoomScale < 300) ∧
      ((run (frames 152) new).animationPhase = 4 ∧
        (run (frames 152) new).phaseTimer = 78 ∧
        ((run (frames 152) new).fallingSeeds.map fun seed => seed.active) = [false] ∧
        (run (frames 152) new).zoomScale = 8 ∧
        (run (frames 152) new).cameraOffsetX = -4064 ∧
        (run (frames 152) new).cameraOffsetY = -3740 ∧
        (run (frames 152) new).seedX = 558 ∧
        (run (frames 152) new).seedY = 505 ∧
        screenX (run (frames 152) new) 558 = -30848 ∧
        screenY (run (frames 152) new) 505 = -27980) := by
  refine ⟨⟨?_, ?_, ?_, ?_, ?_, ?_, ?_, ?_, ?_, ?_⟩, ⟨?_, ?_, ?_, ?_, ?_, ?_, ?_, ?_, ?_, ?_⟩⟩ <;>
    decide!

/-! ## Render pass: the members it leaves alone -/

theorem clearAccumulators_trackRightmost (depth x2 y2 : Int) (p : Pass) :
    (clearAccumulators (trackRightmost depth x2 y2 p)).drawer = (clearAccumulators p).drawer := by
  unfold trackRightmost
  split <;> rfl

theorem clearAccumulators_drawLeaves (rand : Nat → Int) (x2 y2 : Int) (scale : ℚ) (n : Nat) :
    ∀ p : Pass,
      (clearAccumulators (drawLeaves rand x2 y2 scale n p)).drawer =
        (clearAccumulators p).drawer := by
  induction n with
  | zero => intro p; rfl
  | succ n ih =>
    intro p
    simp only [drawLeaves]
    rw [ih]
    rfl

theorem clearAccumulators_decorateLeaves (rand : Nat → Int) (x2 y2 depth : Int)
    (scale bp : ℚ) (p : Pass) :
    (clearAccumulators (decorateLeaves rand x2 y2 depth scale bp p)).drawer =
      (clearAccumulators p).drawer := by
  unfold decorateLeaves
  split
  · exact clearAccumulators_drawLeaves rand x2 y2 scale _ p
  · rfl

theorem clearAccumulators_drawFlower (trig : Trig) (x y : Int) (scale : ℚ) (p : Pass) :
    (clearAccumulators (drawFlower trig x y scale p)).drawer = (clearAccumulators p).drawer := by
  unfold drawFlower
  split <;> rfl

theorem clearAccumulators_decorateFlower (trig : Trig) (x2 y2 depth : Int) (scale bp : ℚ)
    (p : Pass) :
    (clearAccumulators (decorateFlower trig x2 y2 depth scale bp p)).drawer =
      (clearAccumulators p).drawer := by
  unfold decorateFlower
  split
  · exact clearAccumulators_drawFlower trig x2 y2 _ p
  · rfl

theorem clearAccumulators_drawNode (trig : Trig) (rand : Nat → Int) (x1 y1 x2 y2 depth : Int)
    (scale bp : ℚ) (p : Pass) :
    (clearAccumulators (drawNode trig rand x1 y1 x2 y2 depth scale bp p)).drawer =
      (clearAccumulators p).drawer := by
  unfold drawNode
  rw [clearAccumulators_decorateFlower, clearAccumulators_decorateLeaves]
  exact clearAccumulators_trackRightmost depth x2 y2 p

theorem clearAccumulators_drawBranchFuel (trig : Trig) (rand : Nat → Int)
    (scale growthProgress : ℚ) (fuel : Nat) :
    ∀ (x1 y1 : Int) (length angle : ℚ) (depth : Int) (p : Pass),
      (clearAccumulators
          (drawBranchFuel trig rand scale growthProgress fuel x1 y1 length angle depth p)).drawer =
        (clearAccumulators p).drawer := by
  induction fuel with
  | zero => intro x1 y1 length angle depth p; rfl
  | succ fuel ih =>
    intro x1 y1 length angle depth p
    simp only [drawBranchFuel]
    split
    · rfl
    · split
      · rfl
      · rw [ih, ih, ih, clearAccumulators_drawNode]

theorem clearAccumulators_renderTree (trig : Trig) (rand : Nat → Int) (p : Pass) :
    (clearAccumulators (renderTree trig rand p)).drawer = (clearAccumulators p).drawer := by
  unfold renderTree
  dsimp only
  split_ifs
  all_goals first
    | rfl
    | exact clearAccumulators_drawBranchFuel trig rand _ _ _ _ _ _ _ _ p

theorem clearAccumulators_renderSeed (p : Pass) :
    (clearAccumulators (renderSeed p)).drawer = (clearAccumulators p).drawer := by
  unfold renderSeed
  dsimp only
  split_ifs <;> rfl

theorem clearAccumulators_renderSeedling (p : Pass) :
    (clearAccumulators (renderSeedling p)).drawer = (clearAccumulators p).drawer := by
  unfold renderSeedling
  dsimp only
  split_ifs <;> rfl

theorem clearAccumulators_drawFallingSeeds (seeds : List Seed) :
    ∀ p : Pass,
      (clearAccumulators (drawFallingSeeds seeds p)).drawer = (clearAccumulators p).drawer := by
  induction seeds with
  | nil => intro p; rfl
  | cons seed rest ih =>
    intro p
    simp only [drawFallingSeeds]
    split
    · rw [ih]
      rfl
    · exact ih p

/-- Of the members of the object `render()` changes only the two accumulators
(`groundLevel` is put back after the soil is drawn). -/
theorem clearAccumulators_render (trig : Trig) (rand : Nat → Int) (p : Pass) :
    (clearAccumulators (render trig rand p)).drawer = (clearAccumulators p).drawer := by
  unfold render
  show (clearAccumulators (displayPhaseInfo _)).drawer = _
  have h1 : ∀ q : Pass, (clearAccumulators (displayPhaseInfo q)).drawer =
      (clearAccumulators q).drawer := fun _ => rfl
  have h2 : ∀ q : Pass, (clearAccumulators (renderSoil q)).drawer =
      (clearAccumulators q).drawer := fun _ => rfl
  have h3 : ∀ q : Pass, (clearAccumulators (drawClouds (drawSun trig (clearSky trig q)))).drawer =
      (clearAccumulators q).drawer := fun _ => rfl
  rw [h1, clearAccumulators_drawFallingSeeds, clearAccumulators_renderTree,
    clearAccumulators_renderSeedling, clearAccumulators_renderSeed, h2, h3]

/-- Two objects that agree once the accumulators are cleared differ in the
accumulators only. -/
theorem eq_of_cleared_eq (d e : AnimatedTreeDrawer)
    (h : { e with flowerPositions := [], rightmostBranchX := 0, rightmostBranchY := 0 } =
      { d with flowerPositions := [], rightmostBranchX := 0, rightmostBranchY := 0 }) :
    e = { d with
          rightmostBranchX := e.rightmostBranchX
          rightmostBranchY := e.rightmostBranchY
          flowerPositions := e.flowerPositions } := by
  cases d
  cases e
  simp only [AnimatedTreeDrawer.mk.injEq] at h ⊢
  tauto

/-- A `render()` pass leads from reachable states to reachable states. -/
theorem reachable_render (trig : Trig) (rand : Nat → Int) (p : Pass)
    (h : Reachable p.drawer) : Reachable (render trig rand p).drawer := by
  rw [eq_of_cleared_eq p.drawer (render trig rand p).drawer (clearAccumulators_render trig rand p)]
  exact Reachable.render _ _ _ h

/-! ## Render pass: what the accumulators hold after it -/

theorem rightmostFrom_nil (a : Int × Int) : rightmostFrom a [] = a := rfl

theorem rightmostFrom_cons (a t : Int × Int) (tips : List (Int × Int)) :
    rightmostFrom a (t :: tips) = rightmostFrom (if t.1 > a.1 then t else a) tips := rfl

theorem rightmostFrom_append (a : Int × Int) (tips more : List (Int × Int)) :
    rightmostFrom a (tips ++ more) = rightmostFrom (rightmostFrom a tips) more := by
  simp [rightmostFrom, List.foldl_append]

/-- The anchor never moves left. -/
theorem rightmostFrom_anchor_le (tips : List (Int × Int)) :
    ∀ a : Int × Int, a.1 ≤ (rightmostFrom a tips).1 := by
  induction tips with
  | nil => intro a; exact le_refl _
  | cons t rest ih =>
    intro a
    rw [rightmostFrom_cons]
    split
    · exact le_trans (by omega) (ih t)
    · exact ih a

/-- The resulting anchor is not left of any tip. -/
theorem rightmostFrom_tip_le (tips : List (Int × Int)) :
    ∀ a : Int × Int, ∀ t ∈ tips, t.1 ≤ (rightmostFrom a tips).1 := by
  induction tips with
  | nil => intro a t ht; simp at ht
  | cons u rest ih =>
    intro a t ht
    rw [rightmostFrom_cons]
    rcases List.mem_cons.mp ht with h | h
    · subst h
      split
      · exact rightmostFrom_anchor_le rest t
      · exact le_trans (by omega) (rightmostFrom_anchor_le rest a)
    · exact ih _ t h

/-- The resulting anchor is the earlier one or one of the tips. -/
theorem rightmostFrom_eq_or_mem (tips : List (Int × Int)) :
    ∀ a : Int × Int, rightmostFrom a tips = a ∨ rightmostFrom a tips ∈ tips := by
  induction tips with
  | nil => intro a; exact Or.inl rfl
  | cons u rest ih =>
    intro a
    rw [rightmostFrom_cons]
    split
    · rcases ih u with h | h
      · right; rw [h]; exact List.mem_cons_self _ _
      · right; exact List.mem_cons_of_mem _ h
    · rcases ih a with h | h
      · left; exact h
      · right; exact List.mem_cons_of_mem _ h

/-- No tip strictly to the right of the anchor: the anchor stays. -/
theorem rightmostFrom_of_all_le (tips : List (Int × Int)) :
    ∀ a : Int × Int, (∀ t ∈ tips, t.1 ≤ a.1) → rightmostFrom a tips = a := by
  induction tips with
  | nil => intro a _; rfl
  | cons u rest ih =>
    intro a h
    rw [rightmostFrom_cons]
    have hu : ¬ (u.1 > a.1) := by
      have := h u (List.mem_cons_self _ _)
      omega
    rw [if_neg hu]
    exact ih a (fun t ht => h t (List.mem_cons_of_mem _ ht))

/-- Some tip strictly to the right of the anchor: the result is a tip. -/
theorem rightmostFrom_mem_of_exists_gt (tips : List (Int × Int)) (a : Int × Int)
    (h : ∃ t ∈ tips, t.1 > a.1) : rightmostFrom a tips ∈ tips := by
  rcases rightmostFrom_eq_or_mem tips a with he | hm
  · obtain ⟨t, ht, hgt⟩ := h
    have hle := rightmostFrom_tip_le tips a t ht
    rw [he] at hle
    omega
  · exact hm

theorem tipsDrawn_append (l m : List Primitive) :
    tipsDrawn (l ++ m) = tipsDrawn l ++ tipsDrawn m := by
  simp [tipsDrawn, List.filterMap_append]

theorem flowersDrawn_append (l m : List Primitive) :
    flowersDrawn (l ++ m) = flowersDrawn l ++ flowersDrawn m := by
  simp [flowersDrawn, List.filterMap_append]

theorem continues_refl (p : Pass) : Continues p p :=
  ⟨[], by simp, by simp [flowersDrawn], by simp [tipsDrawn, rightmostFrom]⟩

theorem continues_trans {p q r : Pass} (h1 : Continues p q) (h2 : Continues q r) :
    Continues p r := by
  obtain ⟨a1, hd1, hf1, ha1⟩ := h1
  obtain ⟨a2, hd2, hf2, ha2⟩ := h2
  refine ⟨a1 ++ a2, ?_, ?_, ?_⟩
  · rw [hd2, hd1, List.append_assoc]
  · rw [hf2, hf1, flowersDrawn_append, List.append_assoc]
  · rw [ha2, ha1, tipsDrawn_append, rightmostFrom_append]

/-- A step that only draws, and draws neither a depth-1 segment nor a flower
centre, continues the pass. -/
theorem continues_of_drawn (p q : Pass) (added : List Primitive)
    (hd : q.drawn = p.drawn ++ added) (hdr : q.drawer = p.drawer)
    (ht : tipsDrawn added = []) (hf : flowersDrawn added = []) : Continues p q :=
  ⟨added, hd, by rw [hdr, hf, List.append_nil], by rw [hdr, ht, rightmostFrom_nil]⟩

theorem continues_drawLeaves (rand : Nat → Int) (x2 y2 : Int) (scale : ℚ) (n : Nat) :
    ∀ p : Pass, Continues p (drawLeaves rand x2 y2 scale n p) := by
  induction n with
  | zero => intro p; exact continues_refl p
  | succ n ih =>
    intro p
    simp only [drawLeaves]
    refine continues_trans ?_ (ih _)
    exact continues_of_drawn p _ _ rfl rfl rfl rfl

theorem continues_decorateLeaves (rand : Nat → Int) (x2 y2 depth : Int) (scale bp : ℚ)
    (p : Pass) : Continues p (decorateLeaves rand x2 y2 depth scale bp p) := by
  unfold decorateLeaves
  split
  · exact continues_drawLeaves rand x2 y2 scale _ p
  · exact continues_refl p

theorem tipsDrawn_drawPetals (trig : Trig) (x y petalSize : Int) (n : Nat) :
    ∀ i : Nat, tipsDrawn (drawPetals trig x y petalSize i n) = [] := by
  induction n with
  | zero => intro i; rfl
  | succ n ih =>
    intro i
    simp only [drawPetals, tipsDrawn, List.filterMap_cons, Primitive.tip?]
    exact ih (i + 1)

theorem flowersDrawn_drawPetals (trig : Trig) (x y petalSize : Int) (n : Nat) :
    ∀ i : Nat, flowersDrawn (drawPetals trig x y petalSize i n) = [] := by
  induction n with
  | zero => intro i; rfl
  | succ n ih =>
    intro i
    simp only [drawPetals, flowersDrawn, List.filterMap_cons, Primitive.flower?]
    exact ih (i + 1)

/-- `drawFlower` appends the position of the flower whose centre it draws, and
nothing when it returns on `scale <= 0`. -/
theorem continues_drawFlower (trig : Trig) (x y : Int) (scale : ℚ) (p : Pass) :
    Continues p (drawFlower trig x y scale p) := by
  unfold drawFlower
  split
  · exact continues_refl p
  · refine ⟨drawPetals trig x y (toInt (4 * scale)) 0 5 ++
        [Primitive.flowerCentre x y (toInt (4 * scale) - 1)], ?_, ?_, ?_⟩
    · simp only [List.append_assoc]
    · rw [flowersDrawn_append, flowersDrawn_drawPetals]
      rfl
    · rw [tipsDrawn_append, tipsDrawn_drawPetals]
      rfl

theorem continues_decorateFlower (trig : Trig) (x2 y2 depth : Int) (scale bp : ℚ) (p : Pass) :
    Continues p (decorateFlower trig x2 y2 depth scale bp p) := by
  unfold decorateFlower
  split
  · exact continues_drawFlower trig x2 y2 _ p
  · exact continues_refl p

/-- The anchor update and the `line` call of one branch node: a depth-1 node
draws a tip and puts it to the rule "rightmost wins"; a node of another depth
draws no tip and leaves the anchor alone. -/
theorem continues_drawSegment_trackRightmost (x1 y1 x2 y2 depth : Int) (scale : ℚ) (p : Pass) :
    Continues p (drawSegment x1 y1 x2 y2 depth scale (trackRightmost depth x2 y2 p)) := by
  unfold trackRightmost
  by_cases hc : depth = 1 ∧ x2 > p.drawer.rightmostBranchX
  · rw [if_pos hc]
    refine ⟨[_], rfl, ?_, ?_⟩
    · simp [drawSegment, flowersDrawn, Primitive.flower?]
    · simp [drawSegment, tipsDrawn, Primitive.tip?, rightmostFrom, hc.1, hc.2]
  · rw [if_neg hc]
    refine ⟨[_], rfl, ?_, ?_⟩
    · simp [drawSegment, flowersDrawn, Primitive.flower?]
    · by_cases hd : depth = 1
      · have hx : ¬ (x2 > p.drawer.rightmostBranchX) := fun h => hc ⟨hd, h⟩
        simp [drawSegment, tipsDrawn, Primitive.tip?, rightmostFrom, hd, hx]
      · simp [drawSegment, tipsDrawn, Primitive.tip?, rightmostFrom, hd]

theorem continues_drawNode (trig : Trig) (rand : Nat → Int) (x1 y1 x2 y2 depth : Int)
    (scale bp : ℚ) (p : Pass) :
    Continues p (drawNode trig rand x1 y1 x2 y2 depth scale bp p) := by
  unfold drawNode
  exact continues_trans (continues_drawSegment_trackRightmost x1 y1 x2 y2 depth scale p)
    (continues_trans (continues_decorateLeaves rand x2 y2 depth scale bp _)
      (continues_decorateFlower trig x2 y2 depth scale bp _))

theorem continues_drawBranchFuel (trig : Trig) (rand : Nat → Int) (scale growthProgress : ℚ)
    (fuel : Nat) :
    ∀ (x1 y1 : Int) (length angle : ℚ) (depth : Int) (p : Pass),
      Continues p
        (drawBranchFuel trig rand scale growthProgress fuel x1 y1 length angle depth p) := by
  induction fuel with
  | zero => intro x1 y1 length angle depth p; exact continues_refl p
  | succ fuel ih =>
    intro x1 y1 length angle depth p
    simp only [drawBranchFuel]
    split
    · exact continues_refl p
    · split
      · exact continues_refl p
      · exact continues_trans (continues_drawNode trig rand x1 y1 _ _ depth scale _ p)
          (continues_trans (ih _ _ _ _ _ _) (continues_trans (ih _ _ _ _ _ _) (ih _ _ _ _ _ _)))

/-- A generation pass continues the pass it is run on. -/
theorem continues_drawBranch (trig : Trig) (rand : Nat → Int) (x1 y1 : Int) (length angle : ℚ)
    (depth : Int) (scale growthProgress : ℚ) (p : Pass) :
    Continues p (drawBranch trig rand x1 y1 length angle depth scale growthProgress p) :=
  continues_drawBranchFuel trig rand scale growthProgress depth.toNat x1 y1 length angle depth p

theorem continues_renderTree (trig : Trig) (rand : Nat → Int) (p : Pass) :
    Continues p (renderTree trig rand p) := by
  unfold renderTree
  dsimp only
  split_ifs
  all_goals first
    | exact continues_refl p
    | exact continues_drawBranch trig rand _ _ _ _ _ _ _ p

theorem continues_renderSeed (p : Pass) : Continues p (renderSeed p) := by
  unfold renderSeed
  dsimp only
  split_ifs
  all_goals first
    | exact continues_refl p
    | exact continues_of_drawn p _ _ rfl rfl rfl rfl
    | exact continues_trans (continues_of_drawn p (drawSeed _ _ _ _ p) _ rfl rfl rfl rfl)
        (continues_of_drawn _ _ _ rfl rfl rfl rfl)

theorem continues_renderSeedling (p : Pass) : Continues p (renderSeedling p) := by
  unfold renderSeedling
  split
  · exact continues_of_drawn p _ _ rfl rfl rfl rfl
  · exact continues_refl p

theorem continues_drawFallingSeeds (seeds : List Seed) :
    ∀ p : Pass, Continues p (drawFallingSeeds seeds p) := by
  induction seeds with
  | nil => intro p; exact continues_refl p
  | cons seed rest ih =>
    intro p
    simp only [drawFallingSeeds]
    split
    · refine continues_trans ?_ (ih _)
      exact continues_of_drawn p _ _ rfl rfl rfl rfl
    · exact ih p

/-- A `render()` pass continues the pass it is run on: nothing is cleared. -/
theorem continues_render (trig : Trig) (rand : Nat → Int) (p : Pass) :
    Continues p (render trig rand p) := by
  unfold render
  have h1 : Continues p (clearSky trig p) := continues_of_drawn p _ _ rfl rfl rfl rfl
  have h2 : Continues (clearSky trig p) (drawSun trig (clearSky trig p)) :=
    continues_of_drawn _ _ _ rfl rfl rfl rfl
  have h3 : Continues (drawSun trig (clearSky trig p)) (drawClouds (drawSun trig (clearSky trig p))) :=
    continues_of_drawn _ _ _ rfl rfl rfl rfl
  have h4 : ∀ q : Pass, Continues q (renderSoil q) :=
    fun q => continues_of_drawn q _ _ rfl rfl rfl rfl
  have h5 : ∀ q : Pass, Continues q (displayPhaseInfo q) :=
    fun q => continues_of_drawn q _ _ rfl rfl rfl rfl
  exact continues_trans h1 (continues_trans h2 (continues_trans h3 (continues_trans (h4 _)
    (continues_trans (continues_renderSeed _) (continues_trans (continues_renderSeedling _)
      (continues_trans (continues_renderTree trig rand _)
        (continues_trans (continues_drawFallingSeeds _ _) (h5 _))))))))

/-- A generation pass of depth 2 run on top of earlier contents (flower
position and anchor (520, 210), flowers shown): the root draws to (550, 480)
and its three depth-1 children draw the tips (655, 480), (655, 480) and
(634, 480), each with a flower.  The three flower positions are appended after
the earlier one, and the anchor becomes the first rightmost tip (655, 480). -/
theorem drawBranch_depth_two_over_earlier_contents :
    tipsDrawn (drawBranch trigAtZero (fun _ => 0) 400 480 150 0 2 1 1 lateFloweringPass).drawn =
        [(655, 480), (655, 480), (634, 480)] ∧
      flowersDrawn
          (drawBranch trigAtZero (fun _ => 0) 400 480 150 0 2 1 1 lateFloweringPass).drawn =
        [{ x := 655, y := 480 }, { x := 655, y := 480 }, { x := 634, y := 480 }] ∧
      (drawBranch trigAtZero (fun _ => 0) 400 480 150 0 2 1 1
          lateFloweringPass).drawer.flowerPositions =
        [{ x := 520, y := 210 }, { x := 655, y := 480 }, { x := 655, y := 480 },
          { x := 634, y := 480 }] ∧
      (drawBranch trigAtZero (fun _ => 0) 400 480 150 0 2 1 1
          lateFloweringPass).drawer.rightmostBranchX = 655 ∧
      (drawBranch trigAtZero (fun _ => 0) 400 480 150 0 2 1 1
          lateFloweringPass).drawer.rightmostBranchY = 480 := by
  refine ⟨?_, ?_, ?_, ?_, ?_⟩ <;> decide!

/-- C11, amended: `render()` does not clear the accumulators (only
`resetAnimation()` does).  For every state before a `render()` pass, whatever
`flowerPositions` and the anchor held from earlier frames, the pass only adds
to what was drawn, and after it `flowerPositions` is its earlier contents
followed by exactly the positions of the flowers drawn during that pass, in
drawing order.  The anchor is the earlier anchor taken over the depth-1 tips
drawn during that pass by the rule "rightmost wins": when no tip of the pass
lies strictly to the right of the earlier `rightmostBranchX` (in particular
when the pass draws none) the earlier anchor stays; when one does, the anchor is
a depth-1 tip drawn during that pass and no tip of the pass lies to its
right. -/
theorem render_extends_accumulators (trig : Trig) (rand : Nat → Int) (p : Pass) :
    ∃ added : List Primitive,
      (render trig rand p).drawn = p.drawn ++ added ∧
        (render trig rand p).drawer.flowerPositions =
          p.drawer.flowerPositions ++ flowersDrawn added ∧
        ((render trig rand p).drawer.rightmostBranchX,
            (render trig rand p).drawer.rightmostBranchY) =
          rightmostFrom (p.drawer.rightmostBranchX, p.drawer.rightmostBranchY)
            (tipsDrawn added) ∧
        ((∀ t ∈ tipsDrawn added, t.1 ≤ p.drawer.rightmostBranchX) →
          (render trig rand p).drawer.rightmostBranchX = p.drawer.rightmostBranchX ∧
            (render trig rand p).drawer.rightmostBranchY = p.drawer.rightmostBranchY) ∧
        ((∃ t ∈ tipsDrawn added, t.1 > p.drawer.rightmostBranchX) →
          ((render trig rand p).drawer.rightmostBranchX,
              (render trig rand p).drawer.rightmostBranchY) ∈ tipsDrawn added ∧
            p.drawer.rightmostBranchX < (render trig rand p).drawer.rightmostBranchX ∧
            ∀ t ∈ tipsDrawn added, t.1 ≤ (render trig rand p).drawer.rightmostBranchX) := by
  obtain ⟨added, hd, hf, ha⟩ := continues_render trig rand p
  refine ⟨added, hd, hf, ha, ?_, ?_⟩
  · intro hall
    have h := rightmostFrom_of_all_le (tipsDrawn added)
      (p.drawer.rightmostBranchX, p.drawer.rightmostBranchY) hall
    rw [← ha] at h
    exact ⟨congrArg Prod.fst h, congrArg Prod.snd h⟩
  · intro hex
    have hmem := rightmostFrom_mem_of_exists_gt (tipsDrawn added)
      (p.drawer.rightmostBranchX, p.drawer.rightmostBranchY) hex
    have hle := rightmostFrom_tip_le (tipsDrawn added)
      (p.drawer.rightmostBranchX, p.drawer.rightmostBranchY)
    rw [← ha] at hmem hle
    refine ⟨hmem, ?_, hle⟩
    obtain ⟨t, ht, hgt⟩ := hex
    have := hle t ht
    simp only at this
    omega

end AnimatedTreeDrawer
